import Mathlib

/-!
Verification development for the openmux terminal-emulation core, against the
public C interface declared in
src/native/zig-ghostty-wrapper/include/zig-ghostty-wrapper/terminal.h.
The repository ships only that header; the engine behind it is modelled here
from the natural-language specification (spec.md), faithful to the header's
types and documented contracts.  Machine integers are modelled as Nat/Int with
explicit bounds where the header's fixed-width types matter.
-/

/-- Cell model, from the GhosttyCell struct in terminal.h: codepoint,
pre-resolved RGB colors, flags bitset, display width (0, 1 or 2),
hyperlink id, and the grapheme data.  The header stores a uint8_t
grapheme_len (count of extra codepoints beyond the first) plus a side
grapheme table; here the extra codepoints are inlined as a list, and the
uint8_t bound is enforced by the write path (see combineCell). -/
structure GhosttyCell where
  codepoint : Nat
  fg_r : Nat
  fg_g : Nat
  fg_b : Nat
  bg_r : Nat
  bg_g : Nat
  bg_b : Nat
  flags : Nat
  width : Nat
  hyperlink_id : Nat
  extra : List Nat
  deriving Repr, DecidableEq

/-- Modelled from the spec: grapheme_len is the number of extra codepoints
beyond the first (0 = no grapheme), mirroring GhosttyCell.grapheme_len. -/
def grapheme_len (c : GhosttyCell) : Nat := c.extra.length

/-- Make a cell holding one codepoint with the given display width and
default colors/attributes. -/
def mkCell (cp w : Nat) : GhosttyCell :=
  { codepoint := cp, fg_r := 0, fg_g := 0, fg_b := 0,
    bg_r := 0, bg_g := 0, bg_b := 0, flags := 0,
    width := w, hyperlink_id := 0, extra := [] }

/-- The blank cell used for erased/empty grid positions (width 1). -/
def blankCell : GhosttyCell := mkCell 0 1

/-- The width-0 placeholder continuation cell that follows a wide cell. -/
def spacerCell : GhosttyCell := mkCell 0 0

/-- Modelled from the spec: a screen/scrollback row is a run of cells plus
the soft-wrap continuation flag recorded for is_row_wrapped queries. -/
structure TermRow where
  cells : List GhosttyCell
  wrapped : Bool
  deriving Repr, DecidableEq

/-- A fresh blank row of the given number of columns. -/
def blankRow (cols : Nat) : TermRow :=
  { cells := List.replicate cols blankCell, wrapped := false }

/-- Read a cell of a row, blank outside the allocated range. -/
def cellAt (cs : List GhosttyCell) (i : Nat) : GhosttyCell :=
  cs.getD i blankCell

/-- Modelled from the spec: erasing either column of a wide pair erases
both.  Before position c is overwritten, the wide pair overlapping it (if
any) is erased as a unit: a width-2 head at c loses its spacer at c+1, a
width-0 spacer at c loses its head at c-1. -/
def prepCell (cs : List GhosttyCell) (c : Nat) : List GhosttyCell :=
  if (cellAt cs c).width = 2 then cs.set (c + 1) blankCell
  else if (cellAt cs c).width = 0 then cs.set (c - 1) blankCell
  else cs

/-- Write a single-column cell at column c, erasing as a unit any wide pair
the write lands on. -/
def writeNarrowRow (cs : List GhosttyCell) (c : Nat) (x : GhosttyCell) :
    List GhosttyCell :=
  (prepCell cs c).set c x

/-- Clear the cells a wide pair written at columns c, c+1 would overlap:
the pair overlapping c, and the spacer of a head sitting at c+1. -/
def clearForWide (cs : List GhosttyCell) (c : Nat) : List GhosttyCell :=
  if (cellAt cs (c + 1)).width = 2 then (prepCell cs c).set (c + 2) blankCell
  else prepCell cs c

/-- Write a wide (two-column) cell: head at c, spacer at c+1, erasing as a
unit every wide pair the write overlaps. -/
def writeWideRow (cs : List GhosttyCell) (c : Nat) (head : GhosttyCell) :
    List GhosttyCell :=
  ((clearForWide cs c).set c { head with width := 2 }).set (c + 1) spacerCell

/-- Modelled from the spec: truncation that would keep the head of a wide
pair while dropping its spacer erases the head too. -/
def fixTail (cs : List GhosttyCell) : List GhosttyCell :=
  if (cellAt cs (cs.length - 1)).width = 2 then
    cs.set (cs.length - 1) blankCell
  else cs

/-- Resize a row to n columns: truncate (erasing a split wide pair as a
unit) and pad with blank cells. -/
def resizeRow (cs : List GhosttyCell) (n : Nat) : List GhosttyCell :=
  fixTail (cs.take n) ++
    List.replicate (n - (fixTail (cs.take n)).length) blankCell

/-- The wide-cell pairing invariant on a row: every width-2 cell is
immediately followed in range by a width-0 continuation cell, and every
width-0 cell is the continuation of a width-2 cell right before it. -/
def rowPaired (cs : List GhosttyCell) : Prop :=
  ∀ i, i < cs.length →
    ((cellAt cs i).width = 2 →
      i + 1 < cs.length ∧ (cellAt cs (i + 1)).width = 0) ∧
    ((cellAt cs i).width = 0 →
      1 ≤ i ∧ (cellAt cs (i - 1)).width = 2)

/-- Bound reflecting the uint8_t grapheme_len field: every cell carries at
most 255 extra codepoints. -/
def graphemeBound (cs : List GhosttyCell) : Prop :=
  ∀ c ∈ cs, c.extra.length ≤ 255

/-- Attach a zero-width codepoint to the grapheme cluster of the cell at
column t.  The uint8_t grapheme_len field caps the extras at 255; a
combining mark beyond that is dropped. -/
def combineCell (cs : List GhosttyCell) (t : Nat) (cp : Nat) :
    List GhosttyCell :=
  if (cellAt cs t).extra.length < 255 then
    cs.set t { cellAt cs t with extra := (cellAt cs t).extra ++ [cp] }
  else cs

/-- Dirty tri-state, from the GhosttyDirty enum in terminal.h
(DIRTY_PART stands for GHOSTTY_DIRTY_PARTIAL). -/
inductive GhosttyDirty where
  | DIRTY_NONE
  | DIRTY_PART
  | DIRTY_FULL
  deriving Repr, DecidableEq

/-- Kitty graphics image metadata, from GhosttyKittyImageInfo in
terminal.h. -/
structure GhosttyKittyImageInfo where
  id : Nat
  number : Nat
  width : Nat
  height : Nat
  data_len : Nat
  format : Nat
  compression : Nat
  implicit_id : Nat
  transmit_time : Nat
  deriving Repr, DecidableEq

/-- Kitty graphics placement metadata (pin placements only), from
GhosttyKittyPlacement in terminal.h. -/
structure GhosttyKittyPlacement where
  image_id : Nat
  placement_id : Nat
  placement_tag : Nat
  screen_x : Nat
  screen_y : Nat
  x_offset : Nat
  y_offset : Nat
  source_x : Nat
  source_y : Nat
  source_width : Nat
  source_height : Nat
  columns : Nat
  rows : Nat
  z : Int
  deriving Repr, DecidableEq

/-- Terminal configuration, from GhosttyTerminalConfig in terminal.h.
scrollback_limit 0 means unbounded. -/
structure GhosttyTerminalConfig where
  scrollback_limit : Nat
  fg_color : Nat
  bg_color : Nat
  cursor_color : Nat
  palette : List Nat
  deriving Repr, DecidableEq

/-- Default configuration used by ghostty_terminal_new. -/
def defaultConfig : GhosttyTerminalConfig :=
  { scrollback_limit := 10000, fg_color := 0, bg_color := 0,
    cursor_color := 0, palette := List.replicate 16 0 }

/-- Modelled from the spec: the escape-sequence parser mode — ground,
after-ESC, CSI collection (parameters, current parameter, ignore flag for
sequences with unsupported intermediates or private markers), and
string-consuming modes for OSC/DCS/SOS/PM/APC payloads. -/
inductive PMode where
  | ground
  | esc
  | csi (params : List Nat) (cur : Nat) (ign : Bool)
  | str
  | strEsc
  deriving Repr, DecidableEq

/-- Modelled from the spec: incremental parser state — current mode plus
the pending partial multi-byte UTF-8 sequence (accumulated codepoint and
count of continuation bytes still expected), buffered across write calls. -/
structure ParserState where
  mode : PMode
  utf8 : Option (Nat × Nat)
  deriving Repr, DecidableEq

/-- The parser state a fresh terminal starts in. -/
def groundParser : ParserState := { mode := PMode.ground, utf8 := none }

/-- Modelled from the spec: the complete terminal-instance state behind the
opaque GhosttyTerminal handle — geometry, active grid, cursor with
deferred-wrap flag, parser state, bounded scrollback store, per-row dirty
flags, response queue, and the Kitty graphics tables with their own dirty
flag. -/
structure TermState where
  cols : Nat
  rows : Nat
  grid : List TermRow
  cursorX : Nat
  cursorY : Nat
  cursorVisible : Bool
  pendingWrap : Bool
  parser : ParserState
  scrollback : List TermRow
  scrollbackLimit : Nat
  dirtyRows : List Bool
  responseQueue : List Nat
  images : List GhosttyKittyImageInfo
  placements : List GhosttyKittyPlacement
  kittyDirty : Bool
  deriving Repr, DecidableEq

/-- Modelled from the spec: append one row at the young end of the
scrollback store, evicting from the oldest end down to the configured
limit (0 = unbounded). -/
def sbAppendRow (limit : Nat) (sb : List TermRow) (r : TermRow) :
    List TermRow :=
  let sb' := sb ++ [r]
  if limit = 0 then sb' else sb'.drop (sb'.length - limit)

/-- Replace the parser mode, leaving everything else in place. -/
def withMode (st : TermState) (m : PMode) : TermState :=
  { st with parser := { st.parser with mode := m } }

/-- Replace the pending-UTF-8 buffer, leaving everything else in place. -/
def withUtf8 (st : TermState) (u : Option (Nat × Nat)) : TermState :=
  { st with parser := { st.parser with utf8 := u } }

/-- Row of the active grid at index y (blank outside range). -/
def rowAt (st : TermState) (y : Nat) : TermRow :=
  st.grid.getD y (blankRow st.cols)

/-- Apply f to grid row y and mark that row dirty. -/
def updateRowD (st : TermState) (y : Nat) (f : TermRow → TermRow) :
    TermState :=
  { st with grid := st.grid.set y (f (rowAt st y)),
            dirtyRows := st.dirtyRows.set y true }

/-- Modelled from the spec: scroll the primary screen up one row — the top
row is appended to the scrollback store, a blank row enters at the bottom,
and every row is marked dirty. -/
def scrollUp (st : TermState) : TermState :=
  match st.grid with
  | [] => st
  | r :: rest =>
    { st with grid := rest ++ [blankRow st.cols],
              scrollback := sbAppendRow st.scrollbackLimit st.scrollback r,
              dirtyRows := List.replicate st.rows true }

/-- Line feed: move the cursor down, scrolling at the bottom of the screen;
always cancels the deferred-wrap state. -/
def lf (st : TermState) : TermState :=
  let st1 := { st with pendingWrap := false }
  if st1.cursorY + 1 < st1.rows then { st1 with cursorY := st1.cursorY + 1 }
  else scrollUp st1

/-- Soft wrap before printing: advance to the next line and flag the new
row as a soft-wrap continuation of the previous one. -/
def wrapLine (st : TermState) : TermState :=
  let st1 := lf st
  let st2 := updateRowD st1 st1.cursorY (fun r => { r with wrapped := true })
  { st2 with cursorX := 0 }

/-- Modelled from the spec: codepoints of zero display width (combining
marks and zero-width joiners, simplified table). -/
def isZeroWidth (cp : Nat) : Bool :=
  (0x300 ≤ cp && cp ≤ 0x36F) || (0x200B ≤ cp && cp ≤ 0x200D) ||
  (0xFE00 ≤ cp && cp ≤ 0xFE0F)

/-- Modelled from the spec: codepoints of display width 2 (CJK and emoji
ranges, simplified table). -/
def isWide (cp : Nat) : Bool :=
  (0x1100 ≤ cp && cp ≤ 0x115F) || (0x2E80 ≤ cp && cp ≤ 0x303E) ||
  (0x3041 ≤ cp && cp ≤ 0x33FF) || (0x4E00 ≤ cp && cp ≤ 0x9FFF) ||
  (0xAC00 ≤ cp && cp ≤ 0xD7A3) || (0xF900 ≤ cp && cp ≤ 0xFAFF) ||
  (0xFF00 ≤ cp && cp ≤ 0xFF60) || (0x1F300 ≤ cp && cp ≤ 0x1F64F) ||
  (0x20000 ≤ cp && cp ≤ 0x2FFFD)

/-- Display-width classification of a codepoint: 0, 1 or 2. -/
def cpWidth (cp : Nat) : Nat :=
  if isZeroWidth cp then 0 else if isWide cp then 2 else 1

/-- Modelled from the spec: the cell a zero-width codepoint combines into —
the last printed cell, stepping over a continuation spacer to its head;
none when the cursor sits at the start of a row with nothing before it. -/
def combineTarget (st : TermState) : Option Nat :=
  if st.pendingWrap then
    let x := st.cursorX
    some (if (cellAt (rowAt st st.cursorY).cells x).width = 0 then x - 1 else x)
  else if st.cursorX = 0 then none
  else
    let x := st.cursorX - 1
    some (if (cellAt (rowAt st st.cursorY).cells x).width = 0 then x - 1 else x)

/-- Attach a combining mark to the previous cell's grapheme cluster. -/
def putCombining (st : TermState) (cp : Nat) : TermState :=
  match combineTarget st with
  | none => st
  | some t =>
    updateRowD st st.cursorY
      (fun r => { r with cells := combineCell r.cells t cp })

/-- Print a width-1 codepoint at the cursor, honoring deferred wrap. -/
def putNarrow (st0 : TermState) (cp : Nat) : TermState :=
  let st := if st0.pendingWrap then wrapLine st0 else st0
  let st1 := updateRowD st st.cursorY
    (fun r => { r with cells := writeNarrowRow r.cells st.cursorX (mkCell cp 1) })
  if st.cursorX + 1 < st.cols then
    { st1 with cursorX := st.cursorX + 1, pendingWrap := false }
  else
    { st1 with pendingWrap := true }

/-- Print a width-2 codepoint at the cursor: wraps early when the pair
would not fit on the current row; on a one-column screen the codepoint is
dropped. -/
def putWide (st0 : TermState) (cp : Nat) : TermState :=
  if st0.cols < 2 then st0
  else
    let st := if st0.pendingWrap ∨ st0.cols < st0.cursorX + 2 then wrapLine st0
              else st0
    let st1 := updateRowD st st.cursorY
      (fun r => { r with cells := writeWideRow r.cells st.cursorX (mkCell cp 2) })
    if st.cursorX + 2 < st.cols then
      { st1 with cursorX := st.cursorX + 2, pendingWrap := false }
    else
      { st1 with cursorX := st.cols - 1, pendingWrap := true }

/-- Print one decoded codepoint, dispatching on its display width. -/
def putCodepoint (st : TermState) (cp : Nat) : TermState :=
  if cpWidth cp = 0 then putCombining st cp
  else if cpWidth cp = 2 then putWide st cp
  else putNarrow st cp

/-- Backspace: move the cursor one column left, cancelling deferred wrap. -/
def doBackspace (st : TermState) : TermState :=
  { st with cursorX := st.cursorX - 1, pendingWrap := false }

/-- Carriage return. -/
def doCarriageReturn (st : TermState) : TermState :=
  { st with cursorX := 0, pendingWrap := false }

/-- Erase the whole display: every cell reset to blank, all rows dirty. -/
def clearAll (st : TermState) : TermState :=
  { st with grid := List.replicate st.rows (blankRow st.cols),
            dirtyRows := List.replicate st.rows true,
            pendingWrap := false }

/-- Cursor position addressing with spec-mandated clamping: a parameter of
0 counts as 1 and values beyond the grid clamp to the edge. -/
def cursorTo (st : TermState) (pr pc : Nat) : TermState :=
  { st with cursorY := Nat.min (Nat.max pr 1) st.rows - 1,
            cursorX := Nat.min (Nat.max pc 1) st.cols - 1,
            pendingWrap := false }

/-- Decimal ASCII digits of n, for building DSR reports. -/
def decDigits (n : Nat) : List Nat := (Nat.toDigits 10 n).map Char.toNat

/-- Modelled from the spec: the cursor position report queued by DSR 6
(ESC [ row ; col R, one-based). -/
def cursorReport (st : TermState) : List Nat :=
  [0x1B, 0x5B] ++ decDigits (st.cursorY + 1) ++ [0x3B] ++
    decDigits (st.cursorX + 1) ++ [0x52]

/-- Modelled from the spec: CSI dispatch for the directly modelled final
bytes — H (cursor position), J (erase display, parameter 2), n (DSR 6).
Any other final byte is an unsupported sequence, consumed and discarded
with no semantic action. -/
def csiDispatch (st : TermState) (params : List Nat) (f : Nat) : TermState :=
  if f = 0x48 then cursorTo st (params.getD 0 1) (params.getD 1 1)
  else if f = 0x4A then
    if params.getD 0 0 = 2 then clearAll st else st
  else if f = 0x6E then
    if params.getD 0 0 = 6 then
      { st with responseQueue := st.responseQueue ++ cursorReport st }
    else st
  else st

/-- One byte of CSI collection: digits and separators build the parameter
list, private markers and intermediates set the ignore flag, a final byte
dispatches (unless flagged) and returns to ground. -/
def csiStep (st : TermState) (p : List Nat) (cur : Nat) (ign : Bool)
    (b : Nat) : TermState :=
  if 0x30 ≤ b ∧ b ≤ 0x39 then
    withMode st (PMode.csi p (Nat.min (cur * 10 + (b - 0x30)) 65535) ign)
  else if b = 0x3B then withMode st (PMode.csi (p ++ [cur]) 0 ign)
  else if (0x20 ≤ b ∧ b ≤ 0x2F) ∨ b = 0x3A ∨ (0x3C ≤ b ∧ b ≤ 0x3F) then
    withMode st (PMode.csi p cur true)
  else if 0x40 ≤ b ∧ b ≤ 0x7E then
    withMode (if ign then st else csiDispatch st (p ++ [cur]) b) PMode.ground
  else if b = 0x1B then withMode st PMode.esc
  else withMode st (PMode.csi p cur ign)

/-- One fresh byte in ground mode with no pending UTF-8 sequence:
C0 controls, printable ASCII, or the lead byte of a multi-byte UTF-8
sequence.  Malformed lead/stray continuation bytes are discarded. -/
def stepGroundFresh (st : TermState) (b : Nat) : TermState :=
  if b = 0x1B then withMode st PMode.esc
  else if b = 0x0A then lf st
  else if b = 0x0D then doCarriageReturn st
  else if b = 0x08 then doBackspace st
  else if b < 0x20 then st
  else if b < 0x80 then putCodepoint st b
  else if b < 0xC0 then st
  else if b < 0xE0 then withUtf8 st (some (b % 32, 1))
  else if b < 0xF0 then withUtf8 st (some (b % 16, 2))
  else if b < 0xF8 then withUtf8 st (some (b % 8, 3))
  else st

/-- One byte in ground mode: continue a pending multi-byte UTF-8 sequence,
or abandon it when the continuation byte never arrives. -/
def stepGround (st : TermState) (b : Nat) : TermState :=
  match st.parser.utf8 with
  | none => stepGroundFresh st b
  | some (acc, rem) =>
    if 0x80 ≤ b ∧ b < 0xC0 then
      let acc' := acc * 64 + b % 64
      if rem ≤ 1 then putCodepoint (withUtf8 st none) acc'
      else withUtf8 st (some (acc', rem - 1))
    else stepGroundFresh (withUtf8 st none) b

/-- Modelled from the spec: process one input byte through the incremental
escape-sequence state machine.  Total: no input byte is ever an error. -/
def step (st : TermState) (b : Nat) : TermState :=
  match st.parser.mode with
  | PMode.ground => stepGround st b
  | PMode.esc =>
    if b = 0x5B then withMode st (PMode.csi [] 0 false)
    else if b = 0x5D ∨ b = 0x50 ∨ b = 0x58 ∨ b = 0x5E ∨ b = 0x5F then
      withMode st PMode.str
    else withMode st PMode.ground
  | PMode.csi p cur ign => csiStep st p cur ign b
  | PMode.str =>
    if b = 0x07 then withMode st PMode.ground
    else if b = 0x1B then withMode st PMode.strEsc
    else st
  | PMode.strEsc => withMode st PMode.ground

/-- The initial terminal state for a validated geometry. -/
def mkInitialState (cols rows : Nat) (cfg : GhosttyTerminalConfig) :
    TermState :=
  { cols := cols, rows := rows,
    grid := List.replicate rows (blankRow cols),
    cursorX := 0, cursorY := 0, cursorVisible := true,
    pendingWrap := false, parser := groundParser,
    scrollback := [], scrollbackLimit := cfg.scrollback_limit,
    dirtyRows := List.replicate rows false,
    responseQueue := [], images := [], placements := [],
    kittyDirty := false }

/-- ghostty_terminal_new_with_config: create a terminal, failing (NULL)
on invalid dimensions. -/
def ghostty_terminal_new_with_config (cols rows : Int)
    (cfg : Option GhosttyTerminalConfig) : Option TermState :=
  if cols ≤ 0 ∨ rows ≤ 0 then none
  else some (mkInitialState cols.toNat rows.toNat (cfg.getD defaultConfig))

/-- ghostty_terminal_new: create a terminal with default settings. -/
def ghostty_terminal_new (cols rows : Int) : Option TermState :=
  ghostty_terminal_new_with_config cols rows none

/-- ghostty_terminal_write: consume an arbitrary byte slice, processing it
byte-by-byte through the incremental parser.  No return value and no
failure path: every byte sequence is fully consumed. -/
def ghostty_terminal_write (st : TermState) (data : List Nat) : TermState :=
  data.foldl step st

/-- ghostty_terminal_resize: apply a new geometry, top-left anchored,
truncating or padding rows; a split wide pair is erased as a unit.
Invalid (non-positive) dimensions leave the terminal unchanged. -/
def ghostty_terminal_resize (st : TermState) (cols rows : Int) : TermState :=
  if cols ≤ 0 ∨ rows ≤ 0 then st
  else
    let c := cols.toNat
    let r := rows.toNat
    let g1 := (st.grid.take r).map
      (fun row => { row with cells := resizeRow row.cells c })
    { st with cols := c, rows := r,
              grid := g1 ++ List.replicate (r - g1.length) (blankRow c),
              cursorX := Nat.min st.cursorX (c - 1),
              cursorY := Nat.min st.cursorY (r - 1),
              pendingWrap := false,
              dirtyRows := List.replicate r true }

/-- Terminal-wide dirty summary computed from the per-row flags. -/
def computeDirty (st : TermState) : GhosttyDirty :=
  if st.dirtyRows.all (fun b => !b) then GhosttyDirty.DIRTY_NONE
  else if st.dirtyRows.all (fun b => b) then GhosttyDirty.DIRTY_FULL
  else GhosttyDirty.DIRTY_PART

/-- ghostty_render_state_update: recompute the render snapshot and report
the dirty tri-state.  A read: the terminal state is returned unchanged —
dirty flags are never cleared here. -/
def ghostty_render_state_update (st : TermState) : GhosttyDirty × TermState :=
  (computeDirty st, st)

/-- ghostty_render_state_mark_clean: the explicit acknowledgment call —
the only operation that clears the dirty flags. -/
def ghostty_render_state_mark_clean (st : TermState) : TermState :=
  { st with dirtyRows := List.replicate st.dirtyRows.length false }

/-- ghostty_render_state_is_row_dirty. -/
def ghostty_render_state_is_row_dirty (st : TermState) (y : Int) : Bool :=
  if y < 0 then false else st.dirtyRows.getD y.toNat false

/-- ghostty_render_state_get_viewport: every visible cell in row-major
order in one call; -1 when the buffer is undersized.  A read: the state
comes back unchanged. -/
def ghostty_render_state_get_viewport (st : TermState) (cap : Nat) :
    Int × List GhosttyCell × TermState :=
  let cells := (st.grid.map TermRow.cells).flatten
  if st.rows * st.cols ≤ cap then ((cells.length : Int), cells, st)
  else (-1, [], st)

/-- ghostty_render_state_get_grapheme: all codepoints of the grapheme
cluster at (row, col), including the first; -1 for an out-of-range cell or
an undersized buffer.  A read: the state comes back unchanged. -/
def ghostty_render_state_get_grapheme (st : TermState) (row col : Int)
    (cap : Nat) : Int × List Nat × TermState :=
  if 0 ≤ row ∧ row < (st.rows : Int) ∧ 0 ≤ col ∧ col < (st.cols : Int) then
    if (cellAt (rowAt st row.toNat).cells col.toNat).extra.length + 1 ≤ cap then
      (((cellAt (rowAt st row.toNat).cells col.toNat).extra.length + 1 : Nat),
       (cellAt (rowAt st row.toNat).cells col.toNat).codepoint ::
         (cellAt (rowAt st row.toNat).cells col.toNat).extra, st)
    else (-1, [], st)
  else (-1, [], st)

/-- ghostty_terminal_get_scrollback_length: number of retained history
lines, as a C int. -/
def ghostty_terminal_get_scrollback_length (st : TermState) : Int :=
  (st.scrollback.length : Int)

/-- ghostty_terminal_trim_scrollback: remove the given number of lines
from the oldest end, clamped to the current length. -/
def ghostty_terminal_trim_scrollback (st : TermState) (lines : Nat) :
    TermState :=
  { st with scrollback := st.scrollback.drop lines }

/-- ghostty_terminal_get_scrollback_line: the cells of one history line,
offset 0 being the oldest; -1 out of range or undersized buffer. -/
def ghostty_terminal_get_scrollback_line (st : TermState) (offset : Int)
    (cap : Nat) : Int × List GhosttyCell :=
  if 0 ≤ offset ∧ offset < (st.scrollback.length : Int) ∧ st.cols ≤ cap then
    let r := st.scrollback.getD offset.toNat (blankRow st.cols)
    ((r.cells.length : Int), r.cells)
  else (-1, [])

/-- ghostty_terminal_get_scrollback_grapheme: grapheme codepoints of a
scrollback cell, mirroring ghostty_render_state_get_grapheme. -/
def ghostty_terminal_get_scrollback_grapheme (st : TermState)
    (offset col : Int) (cap : Nat) : Int × List Nat × TermState :=
  if 0 ≤ offset ∧ offset < (st.scrollback.length : Int) ∧ 0 ≤ col ∧
      col < (st.cols : Int) then
    if (cellAt (st.scrollback.getD offset.toNat (blankRow st.cols)).cells
          col.toNat).extra.length + 1 ≤ cap then
      (((cellAt (st.scrollback.getD offset.toNat (blankRow st.cols)).cells
            col.toNat).extra.length + 1 : Nat),
       (cellAt (st.scrollback.getD offset.toNat (blankRow st.cols)).cells
           col.toNat).codepoint ::
         (cellAt (st.scrollback.getD offset.toNat (blankRow st.cols)).cells
             col.toNat).extra, st)
    else (-1, [], st)
  else (-1, [], st)

/-- ghostty_terminal_has_response. -/
def ghostty_terminal_has_response (st : TermState) : Bool :=
  !st.responseQueue.isEmpty

/-- ghostty_terminal_read_response: drain pending response bytes in FIFO
order up to the buffer capacity, removing exactly what was copied. -/
def ghostty_terminal_read_response (st : TermState) (cap : Nat) :
    Int × List Nat × TermState :=
  ((Nat.min cap st.responseQueue.length : Nat),
   st.responseQueue.take cap,
   { st with responseQueue := st.responseQueue.drop cap })

/-- Modelled from the spec: deleting an image removes the image and every
placement that references it, and raises the graphics dirty flag. -/
def ghostty_kitty_delete_image (st : TermState) (id : Nat) : TermState :=
  { st with images := st.images.filter (fun im => im.id ≠ id),
            placements := st.placements.filter (fun p => p.image_id ≠ id),
            kittyDirty := true }

/-- ghostty_terminal_get_kitty_placement_count (pin placements only). -/
def ghostty_terminal_get_kitty_placement_count (st : TermState) : Int :=
  (st.placements.length : Int)

/-- ghostty_terminal_get_kitty_placements: bulk placement read; -1 when
the buffer is undersized. -/
def ghostty_terminal_get_kitty_placements (st : TermState) (cap : Nat) :
    Int × List GhosttyKittyPlacement :=
  if st.placements.length ≤ cap then
    ((st.placements.length : Int), st.placements)
  else (-1, [])

/-- ghostty_terminal_clear_kitty_images_dirty. -/
def ghostty_terminal_clear_kitty_images_dirty (st : TermState) : TermState :=
  { st with kittyDirty := false }

/-- A small concrete terminal (4 columns, 3 rows, default configuration)
used to instantiate the theorems below on concrete inputs. -/
def demoTerm : TermState := mkInitialState 4 3 defaultConfig

/-- States reachable through the public mutating interface from a
successfully created terminal. -/
inductive Reachable : TermState → Prop where
  | init : ∀ (cols rows : Int) (cfg : Option GhosttyTerminalConfig)
      (st : TermState),
      ghostty_terminal_new_with_config cols rows cfg = some st → Reachable st
  | write : ∀ st data, Reachable st →
      Reachable (ghostty_terminal_write st data)
  | resize : ∀ st cols rows, Reachable st →
      Reachable (ghostty_terminal_resize st cols rows)
  | trim : ∀ st n, Reachable st →
      Reachable (ghostty_terminal_trim_scrollback st n)
  | markClean : ∀ st, Reachable st →
      Reachable (ghostty_render_state_mark_clean st)
  | deleteImage : ∀ st id, Reachable st →
      Reachable (ghostty_kitty_delete_image st id)
  | clearKittyDirty : ∀ st, Reachable st →
      Reachable (ghostty_terminal_clear_kitty_images_dirty st)
  | readResponse : ∀ st cap, Reachable st →
      Reachable (ghostty_terminal_read_response st cap).2.2

/-- The state invariant maintained by every public operation: positive
geometry, a grid of exactly rows × cols cells, the wide-cell pairing
invariant and the uint8_t grapheme bound on every grid row, the grapheme
bound on every scrollback row, and an in-range cursor. -/
structure StInv (st : TermState) : Prop where
  colsPos : 0 < st.cols
  rowsPos : 0 < st.rows
  gridLen : st.grid.length = st.rows
  rowLen : ∀ r ∈ st.grid, r.cells.length = st.cols
  paired : ∀ r ∈ st.grid, rowPaired r.cells
  gBound : ∀ r ∈ st.grid, graphemeBound r.cells
  sbBound : ∀ r ∈ st.scrollback, graphemeBound r.cells
  curX : st.cursorX < st.cols
  curY : st.cursorY < st.rows

/-! ## Basic helper lemmas -/

theorem cellAt_eq_getElem? (cs : List GhosttyCell) (i : Nat) :
    cellAt cs i = (cs[i]?).getD blankCell :=
  List.getD_eq_getElem?_getD cs i blankCell

theorem cellAt_set_self (cs : List GhosttyCell) (i : Nat) (x : GhosttyCell)
    (h : i < cs.length) : cellAt (cs.set i x) i = x := by
  simp [cellAt_eq_getElem?, List.getElem?_set_self h]

theorem cellAt_set_ne (cs : List GhosttyCell) (i j : Nat) (x : GhosttyCell)
    (h : i ≠ j) : cellAt (cs.set i x) j = cellAt cs j := by
  simp [cellAt_eq_getElem?, List.getElem?_set_ne h]

theorem cellAt_oob (cs : List GhosttyCell) (i : Nat) (h : cs.length ≤ i) :
    cellAt cs i = blankCell := by
  simp [cellAt_eq_getElem?, List.getElem?_eq_none h]

theorem blankCell_width : blankCell.width = 1 := rfl

theorem blankCell_extra : blankCell.extra = [] := rfl

theorem cellAt_replicate_blank (n i : Nat) :
    cellAt (List.replicate n blankCell) i = blankCell := by
  rcases Nat.lt_or_ge i n with h | h
  · simp [cellAt_eq_getElem?, List.getElem?_replicate_of_lt h]
  · exact cellAt_oob _ _ (by simpa using h)

theorem rowPaired_replicate_blank (n : Nat) :
    rowPaired (List.replicate n blankCell) := by
  intro i _
  rw [cellAt_replicate_blank]
  constructor <;> intro hw <;> simp [blankCell, mkCell] at hw

theorem graphemeBound_replicate_blank (n : Nat) :
    graphemeBound (List.replicate n blankCell) := by
  intro c hc
  rw [List.eq_of_mem_replicate hc]
  simp [blankCell, mkCell]

/-! ## C1: incremental parsing equivalence -/

theorem write_append_eq (st : TermState) (a b : List Nat) :
    ghostty_terminal_write (ghostty_terminal_write st a) b =
      ghostty_terminal_write st (a ++ b) := by
  simp [ghostty_terminal_write, List.foldl_append]

/-- C1: for every byte stream and every way of splitting it into multiple
ghostty_terminal_write calls, the resulting state (in particular the grid)
equals the state produced by one single write call with the concatenated
bytes — including splits falling mid UTF-8 sequence or mid escape
sequence, whose pending remainder is carried in the parser state until the
rest arrives. -/
theorem ghostty_write_chunked_eq_concat (st : TermState)
    (chunks : List (List Nat)) :
    chunks.foldl ghostty_terminal_write st =
      ghostty_terminal_write st chunks.flatten ∧
    (chunks.foldl ghostty_terminal_write st).grid =
      (ghostty_terminal_write st chunks.flatten).grid := by
  have key : ∀ (s : TermState) (cs : List (List Nat)),
      cs.foldl ghostty_terminal_write s = ghostty_terminal_write s cs.flatten := by
    intro s cs
    induction cs generalizing s with
    | nil => rfl
    | cons a rest ih =>
      rw [List.foldl_cons, List.flatten_cons, ← write_append_eq, ih]
  exact ⟨key st chunks, by rw [key st chunks]⟩

/-! ## C4: dirty-state contract -/

theorem all_not_replicate_false (n : Nat) :
    (List.replicate n false).all (fun b => !b) = true := by
  induction n with
  | zero => rfl
  | succ k ih => simp [List.replicate_succ, ih]

/-- C4: an update immediately following mark_clean reports DIRTY_NONE, and
the read operations (update, viewport read, grapheme read) hand the
terminal state back unchanged — dirty state is cleared only by the
explicit mark_clean call. -/
theorem update_after_mark_clean_is_none (st : TermState) (row col : Int)
    (cap gcap : Nat) :
    (ghostty_render_state_update (ghostty_render_state_mark_clean st)).1 =
      GhosttyDirty.DIRTY_NONE ∧
    (ghostty_render_state_update st).2 = st ∧
    (ghostty_render_state_get_viewport st cap).2.2 = st ∧
    (ghostty_render_state_get_grapheme st row col gcap).2.2 = st := by
  refine ⟨?_, rfl, ?_, ?_⟩
  · simp [ghostty_render_state_update, ghostty_render_state_mark_clean,
      computeDirty, all_not_replicate_false]
  · simp only [ghostty_render_state_get_viewport]
    split <;> rfl
  · simp only [ghostty_render_state_get_grapheme]
    split
    · split <;> rfl
    · rfl

/-! ## C6: trim clamps to available length -/

theorem drop_min_length (l : List TermRow) (n : Nat) :
    l.drop n = l.drop (min n l.length) := by
  rcases le_total n l.length with h | h
  · rw [Nat.min_eq_left h]
  · rw [Nat.min_eq_right h, List.drop_eq_nil_of_le h,
      List.drop_eq_nil_of_le le_rfl]

/-- C6: ghostty_terminal_trim_scrollback removes exactly
min(n, current length) of the oldest scrollback lines (the retained part
is the corresponding suffix), and the reported scrollback length never
goes negative. -/
theorem trim_scrollback_clamps (st : TermState) (n : Nat) :
    (ghostty_terminal_trim_scrollback st n).scrollback =
      st.scrollback.drop (min n st.scrollback.length) ∧
    st.scrollback = st.scrollback.take (min n st.scrollback.length) ++
      (ghostty_terminal_trim_scrollback st n).scrollback ∧
    ghostty_terminal_get_scrollback_length
        (ghostty_terminal_trim_scrollback st n) =
      ((st.scrollback.length - min n st.scrollback.length : Nat) : Int) ∧
    0 ≤ ghostty_terminal_get_scrollback_length
        (ghostty_terminal_trim_scrollback st n) := by
  refine ⟨drop_min_length _ _, ?_, ?_, ?_⟩
  · conv_lhs => rw [← List.take_append_drop (min n st.scrollback.length)
      st.scrollback]
    rw [show (ghostty_terminal_trim_scrollback st n).scrollback =
      st.scrollback.drop (min n st.scrollback.length) from drop_min_length _ _]
  · show ((st.scrollback.drop n).length : Int) = _
    rw [List.length_drop]
    exact congrArg Nat.cast (by omega)
  · exact Int.natCast_nonneg _

/-! ## C8: deleting an image removes its placements -/

/-- C8: after deleting an image, no retained placement references it: the
placement table returned by ghostty_terminal_get_kitty_placements contains
no placement with that image id, the count of placements for that image is
zero, and ghostty_terminal_get_kitty_placement_count counts only the
remaining placements. -/
theorem delete_image_removes_placements (st : TermState) (id cap : Nat) :
    (∀ p ∈ (ghostty_kitty_delete_image st id).placements, p.image_id ≠ id) ∧
    (∀ p ∈ (ghostty_terminal_get_kitty_placements
        (ghostty_kitty_delete_image st id) cap).2, p.image_id ≠ id) ∧
    ((ghostty_kitty_delete_image st id).placements.filter
        (fun p => p.image_id = id)).length = 0 ∧
    ghostty_terminal_get_kitty_placement_count
        (ghostty_kitty_delete_image st id) =
      ((ghostty_kitty_delete_image st id).placements.length : Int) := by
  have key : ∀ p ∈ (ghostty_kitty_delete_image st id).placements,
      p.image_id ≠ id := by
    intro p hp
    simp only [ghostty_kitty_delete_image, List.mem_filter] at hp
    simpa using hp.2
  refine ⟨key, ?_, ?_, rfl⟩
  · intro p hp
    simp only [ghostty_terminal_get_kitty_placements] at hp
    split at hp
    · exact key p hp
    · simp at hp
  · rw [List.length_eq_zero, List.filter_eq_nil_iff]
    intro p hp
    simpa using key p hp

theorem delete_image_removes_placements_witness :
    (∀ p ∈ (ghostty_kitty_delete_image demoTerm 7).placements,
      p.image_id ≠ 7) ∧
    (∀ p ∈ (ghostty_terminal_get_kitty_placements
        (ghostty_kitty_delete_image demoTerm 7) 4).2, p.image_id ≠ 7) ∧
    ((ghostty_kitty_delete_image demoTerm 7).placements.filter
        (fun p => p.image_id = 7)).length = 0 ∧
    ghostty_terminal_get_kitty_placement_count
        (ghostty_kitty_delete_image demoTerm 7) =
      ((ghostty_kitty_delete_image demoTerm 7).placements.length : Int) :=
  delete_image_removes_placements demoTerm 7 4

/-! ## C9: response queue FIFO -/

/-- C9: ghostty_terminal_read_response copies the FIFO-first bytes up to
the buffer capacity, removes exactly the copied bytes (the rest stays
queued), and returns the number of bytes written; with a nonempty buffer a
0 return means nothing was pending. -/
theorem read_response_fifo (st : TermState) (cap : Nat) :
    (ghostty_terminal_read_response st cap).2.1 =
      st.responseQueue.take cap ∧
    (ghostty_terminal_read_response st cap).2.2.responseQueue =
      st.responseQueue.drop cap ∧
    st.responseQueue = (ghostty_terminal_read_response st cap).2.1 ++
      (ghostty_terminal_read_response st cap).2.2.responseQueue ∧
    (ghostty_terminal_read_response st cap).1 =
      ((ghostty_terminal_read_response st cap).2.1.length : Int) ∧
    (ghostty_terminal_read_response st cap).1 =
      ((min cap st.responseQueue.length : Nat) : Int) ∧
    (0 < cap → ((ghostty_terminal_read_response st cap).1 = 0 ↔
      st.responseQueue = [])) := by
  refine ⟨rfl, rfl, (List.take_append_drop cap st.responseQueue).symm,
    ?_, rfl, ?_⟩
  · show ((min cap st.responseQueue.length : Nat) : Int) =
      ((st.responseQueue.take cap).length : Int)
    rw [List.length_take]
  · intro hcap
    show ((min cap st.responseQueue.length : Nat) : Int) = 0 ↔ _
    constructor
    · intro h
      have h0 : min cap st.responseQueue.length = 0 := by exact_mod_cast h
      have : st.responseQueue.length = 0 := by omega
      exact List.length_eq_zero.mp this
    · intro h
      simp [h]

theorem read_response_fifo_witness :
    (ghostty_terminal_read_response
        { demoTerm with responseQueue := [1, 2, 3] } 2).1 = 0 ↔
      ({ demoTerm with responseQueue := [1, 2, 3] } : TermState).responseQueue
        = [] :=
  (read_response_fifo { demoTerm with responseQueue := [1, 2, 3] } 2).2.2.2.2.2
    (by decide)

/-! ## C2: scrollback length after N scroll events -/

theorem sbAppendRow_length (L : Nat) (hL : 0 < L) (sb : List TermRow)
    (r : TermRow) :
    (sbAppendRow L sb r).length = min (sb.length + 1) L := by
  have hne : L ≠ 0 := hL.ne'
  simp only [sbAppendRow, if_neg hne, List.length_drop, List.length_append,
    List.length_cons, List.length_nil]
  omega

theorem foldl_sbAppendRow_length (L : Nat) (hL : 0 < L)
    (rs : List TermRow) :
    ∀ acc : List TermRow, acc.length ≤ L →
      (rs.foldl (sbAppendRow L) acc).length = min (acc.length + rs.length) L := by
  induction rs with
  | nil =>
    intro acc h
    simp only [List.foldl_nil, List.length_nil]
    omega
  | cons r rest ih =>
    intro acc h
    rw [List.foldl_cons,
      ih (sbAppendRow L acc r) (by rw [sbAppendRow_length L hL]; omega),
      sbAppendRow_length L hL, List.length_cons]
    omega

/-- C2: starting from an empty scrollback with limit L > 0, after the rows
of rs have been scrolled off the primary screen the reported scrollback
length is min(N, L); appending never pushes the retained count above L;
eviction at capacity removes exactly the oldest line; and a primary-screen
scroll feeds the store through exactly this append operation with the
grid's top row. -/
theorem scrollback_length_min_bounded (L : Nat) (rs : List TermRow)
    (st : TermState) (hL : 0 < L)
    (hsb : st.scrollback = rs.foldl (sbAppendRow L) []) :
    ghostty_terminal_get_scrollback_length st = ((min rs.length L : Nat) : Int) ∧
    (∀ (sb : List TermRow) (r : TermRow), sb.length ≤ L →
      (sbAppendRow L sb r).length ≤ L) ∧
    (∀ (sb : List TermRow) (r : TermRow), sb.length = L →
      sbAppendRow L sb r = sb.tail ++ [r]) ∧
    (∀ s : TermState, s.grid ≠ [] →
      (scrollUp s).scrollback =
        sbAppendRow s.scrollbackLimit s.scrollback
          (s.grid.headD (blankRow s.cols))) := by
  refine ⟨?_, ?_, ?_, ?_⟩
  · show ((st.scrollback.length : Nat) : Int) = _
    rw [hsb, foldl_sbAppendRow_length L hL rs [] (by simp)]
    simp
  · intro sb r h
    rw [sbAppendRow_length L hL]
    omega
  · intro sb r h
    have hne : L ≠ 0 := hL.ne'
    simp only [sbAppendRow, if_neg hne, List.length_append, List.length_cons,
      List.length_nil, h]
    rw [show L + (0 + 1) - L = 1 from by omega,
      List.drop_append_of_le_length (by omega), List.drop_one]
  · intro s hs
    rcases hg : s.grid with _ | ⟨r, rest⟩
    · exact absurd hg hs
    · simp [scrollUp, hg]

theorem scrollback_length_min_bounded_witness :
    ghostty_terminal_get_scrollback_length
      { demoTerm with
        scrollback := (List.replicate 3 (blankRow 4)).foldl (sbAppendRow 2) [] }
      = ((min (List.replicate 3 (blankRow 4)).length 2 : Nat) : Int) :=
  (scrollback_length_min_bounded 2 (List.replicate 3 (blankRow 4))
    { demoTerm with
      scrollback := (List.replicate 3 (blankRow 4)).foldl (sbAppendRow 2) [] }
    (by decide) rfl).1

/-! ## C5: malformed sequences are consumed and discarded -/

theorem withMode_withMode (st : TermState) (m m' : PMode) :
    withMode (withMode st m) m' = withMode st m' := rfl

theorem withMode_eq_self (st : TermState) (h : st.parser = groundParser) :
    withMode st PMode.ground = st := by
  cases st with
  | mk cols rows grid cx cy cv pw parser sb sl dr rq im pl kd =>
    simp only [withMode]
    simp only at h
    rw [h]
    rfl

theorem csiDispatch_unknown (st : TermState) (params : List Nat) (f : Nat)
    (h1 : f ≠ 0x48) (h2 : f ≠ 0x4A) (h3 : f ≠ 0x6E) :
    csiDispatch st params f = st := by
  simp [csiDispatch, h1, h2, h3]

theorem csiStep_param (st : TermState) (p : List Nat) (cur : Nat)
    (ign : Bool) (b : Nat) (hb : 0x30 ≤ b ∧ b ≤ 0x3F) :
    ∃ p' cur' ign', csiStep st p cur ign b =
      withMode st (PMode.csi p' cur' ign') := by
  unfold csiStep
  split_ifs <;> first
    | exact ⟨_, _, _, rfl⟩
    | omega

theorem csiStep_unknown_final (st : TermState) (p : List Nat) (cur : Nat)
    (ign : Bool) (f : Nat) (hf1 : 0x40 ≤ f) (hf2 : f ≤ 0x7E)
    (h1 : f ≠ 0x48) (h2 : f ≠ 0x4A) (h3 : f ≠ 0x6E) :
    csiStep st p cur ign f = withMode st PMode.ground := by
  unfold csiStep
  split_ifs <;> first
    | rfl
    | omega
    | rw [csiDispatch_unknown st (p ++ [cur]) f h1 h2 h3]

theorem step_csi_params (st : TermState) (ps : List Nat)
    (hps : ∀ b ∈ ps, 0x30 ≤ b ∧ b ≤ 0x3F) :
    ∀ p cur ign, ∃ p' cur' ign',
      List.foldl step (withMode st (PMode.csi p cur ign)) ps =
        withMode st (PMode.csi p' cur' ign') := by
  induction ps with
  | nil => intro p cur ign; exact ⟨p, cur, ign, rfl⟩
  | cons b rest ih =>
    intro p cur ign
    have hb := hps b (List.mem_cons_self b rest)
    have hrest : ∀ x ∈ rest, 0x30 ≤ x ∧ x ≤ 0x3F :=
      fun x hx => hps x (List.mem_cons_of_mem b hx)
    rw [List.foldl_cons]
    have hstep : step (withMode st (PMode.csi p cur ign)) b =
        csiStep (withMode st (PMode.csi p cur ign)) p cur ign b := rfl
    obtain ⟨p1, cur1, ign1, h1⟩ :=
      csiStep_param (withMode st (PMode.csi p cur ign)) p cur ign b hb
    rw [hstep, h1, withMode_withMode]
    exact ih hrest p1 cur1 ign1

/-- C5: a malformed CSI sequence (any final byte the engine does not
dispatch) is consumed and discarded by ghostty_terminal_write without any
error path — the terminal state is exactly what it was, and subsequent
input is processed as if the malformed sequence had never been written.
The write itself is a total function of the input bytes: no byte sequence
signals failure to the caller. -/
theorem malformed_csi_discarded (st : TermState) (ps : List Nat) (f : Nat)
    (bs : List Nat) (hground : st.parser = groundParser)
    (hps : ∀ b ∈ ps, 0x30 ≤ b ∧ b ≤ 0x3F)
    (hf1 : 0x40 ≤ f) (hf2 : f ≤ 0x7E)
    (h1 : f ≠ 0x48) (h2 : f ≠ 0x4A) (h3 : f ≠ 0x6E) :
    ghostty_terminal_write st (0x1B :: 0x5B :: (ps ++ [f])) = st ∧
    ghostty_terminal_write st ((0x1B :: 0x5B :: (ps ++ [f])) ++ bs) =
      ghostty_terminal_write st bs := by
  have hmain : ghostty_terminal_write st (0x1B :: 0x5B :: (ps ++ [f])) = st := by
    show List.foldl step st (0x1B :: 0x5B :: (ps ++ [f])) = st
    rw [List.foldl_cons]
    have e1 : step st 0x1B = withMode st PMode.esc := by
      simp [step, stepGround, stepGroundFresh, hground, groundParser]
    rw [e1, List.foldl_cons]
    have e2 : step (withMode st PMode.esc) 0x5B =
        withMode st (PMode.csi [] 0 false) := rfl
    rw [e2, List.foldl_append]
    obtain ⟨p', cur', ign', h'⟩ := step_csi_params st ps hps [] 0 false
    rw [h']
    show List.foldl step (withMode st (PMode.csi p' cur' ign')) [f] = st
    rw [List.foldl_cons, List.foldl_nil]
    have e3 : step (withMode st (PMode.csi p' cur' ign')) f =
        csiStep (withMode st (PMode.csi p' cur' ign')) p' cur' ign' f := rfl
    rw [e3, csiStep_unknown_final _ _ _ _ f hf1 hf2 h1 h2 h3,
      withMode_withMode, withMode_eq_self st hground]
  refine ⟨hmain, ?_⟩
  rw [← write_append_eq, hmain]

theorem malformed_csi_discarded_witness :
    ghostty_terminal_write demoTerm [0x1B, 0x5B, 0x31, 0x71] = demoTerm ∧
    ghostty_terminal_write demoTerm ([0x1B, 0x5B, 0x31, 0x71] ++ [0x41]) =
      ghostty_terminal_write demoTerm [0x41] :=
  malformed_csi_discarded demoTerm [0x31] 0x71 [0x41] rfl (by decide)
    (by decide) (by decide) (by decide) (by decide) (by decide)

/-! ## Row-level preservation of the wide-cell pairing invariant -/

theorem length_prepCell (cs : List GhosttyCell) (c : Nat) :
    (prepCell cs c).length = cs.length := by
  unfold prepCell
  split_ifs <;> simp

theorem length_writeNarrowRow (cs : List GhosttyCell) (c : Nat)
    (x : GhosttyCell) : (writeNarrowRow cs c x).length = cs.length := by
  unfold writeNarrowRow
  simp [length_prepCell]

theorem length_clearForWide (cs : List GhosttyCell) (c : Nat) :
    (clearForWide cs c).length = cs.length := by
  unfold clearForWide
  split_ifs <;> simp [length_prepCell]

theorem length_writeWideRow (cs : List GhosttyCell) (c : Nat)
    (head : GhosttyCell) : (writeWideRow cs c head).length = cs.length := by
  unfold writeWideRow
  simp [length_clearForWide]

theorem blankCell_width_facts : blankCell.width ≠ 2 ∧ blankCell.width ≠ 0 := by
  constructor <;> simp [blankCell, mkCell]

theorem rowPaired_writeNarrow_head (cs : List GhosttyCell) (c : Nat)
    (x : GhosttyCell) (hp : rowPaired cs) (hx : x.width = 1)
    (hc : c < cs.length) (hw2 : (cellAt cs c).width = 2) :
    rowPaired ((cs.set (c + 1) blankCell).set c x) := by
  obtain ⟨hc1, hsp⟩ := (hp c hc).1 hw2
  have hLs : ((cs.set (c + 1) blankCell).set c x).length = cs.length := by simp
  have hat : ∀ j, j ≠ c → j ≠ c + 1 →
      cellAt ((cs.set (c + 1) blankCell).set c x) j = cellAt cs j := by
    intro j hj1 hj2
    rw [cellAt_set_ne _ c j x hj1.symm,
      cellAt_set_ne _ (c + 1) j blankCell hj2.symm]
  have hatc : cellAt ((cs.set (c + 1) blankCell).set c x) c = x :=
    cellAt_set_self _ c x (by simpa using hc)
  have hatc1 : cellAt ((cs.set (c + 1) blankCell).set c x) (c + 1) = blankCell := by
    rw [cellAt_set_ne _ c (c + 1) x (by omega),
      cellAt_set_self _ _ _ (by simpa using hc1)]
  intro i hi
  rw [hLs] at hi
  constructor
  · intro hwide
    by_cases hic : i = c
    · subst hic
      rw [hatc] at hwide
      omega
    by_cases hic1 : i = c + 1
    · subst hic1
      rw [hatc1] at hwide
      exact absurd hwide blankCell_width_facts.1
    rw [hat i hic hic1] at hwide
    obtain ⟨hlt, hz⟩ := (hp i hi).1 hwide
    refine ⟨by rw [hLs]; exact hlt, ?_⟩
    by_cases h1 : i + 1 = c
    · exfalso
      rw [h1] at hz
      omega
    by_cases h2 : i + 1 = c + 1
    · exact absurd (by omega : i = c) hic
    rw [hat (i + 1) h1 h2]
    exact hz
  · intro hzero
    by_cases hic : i = c
    · subst hic
      rw [hatc] at hzero
      omega
    by_cases hic1 : i = c + 1
    · subst hic1
      rw [hatc1] at hzero
      exact absurd hzero blankCell_width_facts.2
    rw [hat i hic hic1] at hzero
    obtain ⟨h1i, hw2'⟩ := (hp i hi).2 hzero
    refine ⟨h1i, ?_⟩
    by_cases hm1 : i - 1 = c
    · exact absurd (by omega : i = c + 1) hic1
    by_cases hm2 : i - 1 = c + 1
    · exfalso
      rw [hm2] at hw2'
      omega
    rw [hat (i - 1) hm1 hm2]
    exact hw2'

theorem rowPaired_writeNarrow_spacer (cs : List GhosttyCell) (c : Nat)
    (x : GhosttyCell) (hp : rowPaired cs) (hx : x.width = 1)
    (hc : c < cs.length) (hw0 : (cellAt cs c).width = 0) :
    rowPaired ((cs.set (c - 1) blankCell).set c x) := by
  obtain ⟨hc1, hhd⟩ := (hp c hc).2 hw0
  have hLs : ((cs.set (c - 1) blankCell).set c x).length = cs.length := by simp
  have hat : ∀ j, j ≠ c → j ≠ c - 1 →
      cellAt ((cs.set (c - 1) blankCell).set c x) j = cellAt cs j := by
    intro j hj1 hj2
    rw [cellAt_set_ne _ c j x hj1.symm,
      cellAt_set_ne _ (c - 1) j blankCell hj2.symm]
  have hatc : cellAt ((cs.set (c - 1) blankCell).set c x) c = x :=
    cellAt_set_self _ c x (by simpa using hc)
  have hatcm : cellAt ((cs.set (c - 1) blankCell).set c x) (c - 1) = blankCell := by
    rw [cellAt_set_ne _ c (c - 1) x (by omega),
      cellAt_set_self _ _ _ (by omega)]
  intro i hi
  rw [hLs] at hi
  constructor
  · intro hwide
    by_cases hic : i = c
    · subst hic
      rw [hatc] at hwide
      omega
    by_cases hicm : i = c - 1
    · subst hicm
      rw [hatcm] at hwide
      exact absurd hwide blankCell_width_facts.1
    rw [hat i hic hicm] at hwide
    obtain ⟨hlt, hz⟩ := (hp i hi).1 hwide
    refine ⟨by rw [hLs]; exact hlt, ?_⟩
    by_cases h1 : i + 1 = c
    · exact absurd (by omega : i = c - 1) hicm
    by_cases h2 : i + 1 = c - 1
    · exfalso
      rw [h2] at hz
      omega
    rw [hat (i + 1) h1 h2]
    exact hz
  · intro hzero
    by_cases hic : i = c
    · subst hic
      rw [hatc] at hzero
      omega
    by_cases hicm : i = c - 1
    · subst hicm
      rw [hatcm] at hzero
      exact absurd hzero blankCell_width_facts.2
    rw [hat i hic hicm] at hzero
    obtain ⟨h1i, hw2'⟩ := (hp i hi).2 hzero
    refine ⟨h1i, ?_⟩
    by_cases hm1 : i - 1 = c
    · exfalso
      rw [hm1] at hw2'
      omega
    by_cases hm2 : i - 1 = c - 1
    · exact absurd (by omega : i = c) hic
    rw [hat (i - 1) hm1 hm2]
    exact hw2'

theorem rowPaired_writeNarrow_plain (cs : List GhosttyCell) (c : Nat)
    (x : GhosttyCell) (hp : rowPaired cs) (hx : x.width = 1)
    (hc : c < cs.length) (hwn2 : (cellAt cs c).width ≠ 2)
    (hwn0 : (cellAt cs c).width ≠ 0) :
    rowPaired (cs.set c x) := by
  have hat : ∀ j, j ≠ c → cellAt (cs.set c x) j = cellAt cs j := by
    intro j hj
    rw [cellAt_set_ne _ c j x hj.symm]
  have hatc : cellAt (cs.set c x) c = x := cellAt_set_self _ c x hc
  intro i hi
  rw [List.length_set] at hi
  constructor
  · intro hwide
    by_cases hic : i = c
    · subst hic
      rw [hatc] at hwide
      omega
    rw [hat i hic] at hwide
    obtain ⟨hlt, hz⟩ := (hp i hi).1 hwide
    refine ⟨by rw [List.length_set]; exact hlt, ?_⟩
    by_cases h1 : i + 1 = c
    · exfalso
      rw [h1] at hz
      exact hwn0 hz
    rw [hat (i + 1) h1]
    exact hz
  · intro hzero
    by_cases hic : i = c
    · subst hic
      rw [hatc] at hzero
      omega
    rw [hat i hic] at hzero
    obtain ⟨h1i, hw2'⟩ := (hp i hi).2 hzero
    refine ⟨h1i, ?_⟩
    by_cases hm1 : i - 1 = c
    · exfalso
      rw [hm1] at hw2'
      exact hwn2 hw2'
    rw [hat (i - 1) hm1]
    exact hw2'

theorem rowPaired_writeNarrowRow (cs : List GhosttyCell) (c : Nat)
    (x : GhosttyCell) (hp : rowPaired cs) (hx : x.width = 1) :
    rowPaired (writeNarrowRow cs c x) := by
  by_cases hc : c < cs.length
  · by_cases hw2 : (cellAt cs c).width = 2
    · have hrow : writeNarrowRow cs c x = (cs.set (c + 1) blankCell).set c x := by
        unfold writeNarrowRow prepCell
        rw [if_pos hw2]
      rw [hrow]
      exact rowPaired_writeNarrow_head cs c x hp hx hc hw2
    by_cases hw0 : (cellAt cs c).width = 0
    · have hrow : writeNarrowRow cs c x = (cs.set (c - 1) blankCell).set c x := by
        unfold writeNarrowRow prepCell
        rw [if_neg hw2, if_pos hw0]
      rw [hrow]
      exact rowPaired_writeNarrow_spacer cs c x hp hx hc hw0
    · have hrow : writeNarrowRow cs c x = cs.set c x := by
        unfold writeNarrowRow prepCell
        rw [if_neg hw2, if_neg hw0]
      rw [hrow]
      exact rowPaired_writeNarrow_plain cs c x hp hx hc hw2 hw0
  · have hblank : cellAt cs c = blankCell := cellAt_oob cs c (by omega)
    have hrow : writeNarrowRow cs c x = cs := by
      unfold writeNarrowRow prepCell
      rw [hblank, if_neg blankCell_width_facts.1, if_neg blankCell_width_facts.2,
        List.set_eq_of_length_le (by omega)]
    rw [hrow]
    exact hp

theorem prepCell_at_ne (cs : List GhosttyCell) (c j : Nat)
    (h1 : j ≠ c - 1) (h2 : j ≠ c + 1) :
    cellAt (prepCell cs c) j = cellAt cs j := by
  unfold prepCell
  split_ifs
  · rw [cellAt_set_ne _ (c + 1) j blankCell h2.symm]
  · rw [cellAt_set_ne _ (c - 1) j blankCell h1.symm]
  · rfl

theorem clearForWide_at_ne (cs : List GhosttyCell) (c j : Nat)
    (h1 : j ≠ c - 1) (h2 : j ≠ c + 1) (h3 : j ≠ c + 2) :
    cellAt (clearForWide cs c) j = cellAt cs j := by
  unfold clearForWide
  split_ifs
  · rw [cellAt_set_ne _ (c + 2) j blankCell h3.symm, prepCell_at_ne cs c j h1 h2]
  · exact prepCell_at_ne cs c j h1 h2

theorem clearForWide_at_cm1_blank (cs : List GhosttyCell) (c : Nat)
    (hw0 : (cellAt cs c).width = 0) (hlen : c - 1 < cs.length) :
    cellAt (clearForWide cs c) (c - 1) = blankCell := by
  have hprep : cellAt (prepCell cs c) (c - 1) = blankCell := by
    unfold prepCell
    rw [if_neg (by omega), if_pos hw0]
    exact cellAt_set_self _ _ _ hlen
  unfold clearForWide
  split_ifs
  · rw [cellAt_set_ne _ (c + 2) (c - 1) blankCell (by omega)]
    exact hprep
  · exact hprep

theorem clearForWide_at_cm1_orig (cs : List GhosttyCell) (c : Nat)
    (hwn0 : (cellAt cs c).width ≠ 0) :
    cellAt (clearForWide cs c) (c - 1) = cellAt cs (c - 1) := by
  have hprep : cellAt (prepCell cs c) (c - 1) = cellAt cs (c - 1) := by
    unfold prepCell
    by_cases ha : (cellAt cs c).width = 2
    · rw [if_pos ha]
      exact cellAt_set_ne _ (c + 1) (c - 1) blankCell (by omega)
    · rw [if_neg ha, if_neg hwn0]
  unfold clearForWide
  split_ifs
  · rw [cellAt_set_ne _ (c + 2) (c - 1) blankCell (by omega)]
    exact hprep
  · exact hprep

theorem clearForWide_at_cp2_blank (cs : List GhosttyCell) (c : Nat)
    (hw2 : (cellAt cs (c + 1)).width = 2) (hlen : c + 2 < cs.length) :
    cellAt (clearForWide cs c) (c + 2) = blankCell := by
  unfold clearForWide
  rw [if_pos hw2]
  exact cellAt_set_self _ _ _ (by rw [length_prepCell]; exact hlen)

theorem clearForWide_at_cp2_orig (cs : List GhosttyCell) (c : Nat)
    (hwn2 : (cellAt cs (c + 1)).width ≠ 2) :
    cellAt (clearForWide cs c) (c + 2) = cellAt cs (c + 2) := by
  unfold clearForWide
  rw [if_neg hwn2]
  unfold prepCell
  split_ifs
  · exact cellAt_set_ne _ (c + 1) (c + 2) blankCell (by omega)
  · exact cellAt_set_ne _ (c - 1) (c + 2) blankCell (by omega)
  · rfl

theorem spacerCell_width : spacerCell.width = 0 := rfl

theorem rowPaired_writeWideRow (cs : List GhosttyCell) (c : Nat)
    (head : GhosttyCell) (hp : rowPaired cs) (hc : c + 1 < cs.length) :
    rowPaired (writeWideRow cs c head) := by
  have hclen : c < cs.length := by omega
  have hLs : (writeWideRow cs c head).length = cs.length :=
    length_writeWideRow cs c head
  have hdw : ({ head with width := 2 } : GhosttyCell).width = 2 := rfl
  have hat : ∀ j, j ≠ c → j ≠ c + 1 →
      cellAt (writeWideRow cs c head) j = cellAt (clearForWide cs c) j := by
    intro j hj1 hj2
    unfold writeWideRow
    rw [cellAt_set_ne _ (c + 1) j spacerCell hj2.symm,
      cellAt_set_ne _ c j _ hj1.symm]
  have hatc : cellAt (writeWideRow cs c head) c = { head with width := 2 } := by
    unfold writeWideRow
    rw [cellAt_set_ne _ (c + 1) c spacerCell (by omega)]
    exact cellAt_set_self _ _ _ (by rw [length_clearForWide]; omega)
  have hatc1 : cellAt (writeWideRow cs c head) (c + 1) = spacerCell := by
    unfold writeWideRow
    exact cellAt_set_self _ _ _ (by rw [List.length_set, length_clearForWide]; omega)
  intro i hi
  rw [hLs] at hi
  constructor
  · intro hwide
    by_cases hic : i = c
    · subst hic
      refine ⟨by rw [hLs]; omega, ?_⟩
      rw [hatc1]
      rfl
    by_cases hic1 : i = c + 1
    · subst hic1
      rw [hatc1] at hwide
      simp [spacerCell, mkCell] at hwide
    rw [hat i hic hic1] at hwide
    by_cases him : i = c - 1
    · exfalso
      subst him
      by_cases hw0 : (cellAt cs c).width = 0
      · rw [clearForWide_at_cm1_blank cs c hw0 (by omega)] at hwide
        simp [blankCell, mkCell] at hwide
      · rw [clearForWide_at_cm1_orig cs c hw0] at hwide
        obtain ⟨_, hz⟩ := (hp (c - 1) (by omega)).1 hwide
        rw [show c - 1 + 1 = c from by omega] at hz
        exact hw0 hz
    by_cases hip2 : i = c + 2
    · subst hip2
      by_cases hw2 : (cellAt cs (c + 1)).width = 2
      · rw [clearForWide_at_cp2_blank cs c hw2 (by omega)] at hwide
        simp [blankCell, mkCell] at hwide
      · rw [clearForWide_at_cp2_orig cs c hw2] at hwide
        obtain ⟨hlt, hz⟩ := (hp (c + 2) hi).1 hwide
        refine ⟨by rw [hLs]; exact hlt, ?_⟩
        rw [hat (c + 2 + 1) (by omega) (by omega),
          clearForWide_at_ne cs c (c + 2 + 1) (by omega) (by omega) (by omega)]
        exact hz
    rw [clearForWide_at_ne cs c i him hic1 hip2] at hwide
    obtain ⟨hlt, hz⟩ := (hp i hi).1 hwide
    refine ⟨by rw [hLs]; exact hlt, ?_⟩
    rw [hat (i + 1) (by omega) (by omega)]
    by_cases h1 : i + 1 = c - 1
    · by_cases hw0 : (cellAt cs c).width = 0
      · obtain ⟨_, hhd⟩ := (hp c hclen).2 hw0
        rw [h1] at hz
        omega
      · rw [h1, clearForWide_at_cm1_orig cs c hw0]
        rw [h1] at hz
        exact hz
    by_cases h2 : i + 1 = c + 2
    · exact absurd (by omega : i = c + 1) hic1
    rw [clearForWide_at_ne cs c (i + 1) h1 (by omega) h2]
    exact hz
  · intro hzero
    by_cases hic : i = c
    · subst hic
      rw [hatc] at hzero
      simp at hzero
    by_cases hic1 : i = c + 1
    · subst hic1
      refine ⟨by omega, ?_⟩
      rw [show c + 1 - 1 = c from by omega, hatc]
    rw [hat i hic hic1] at hzero
    by_cases him : i = c - 1
    · subst him
      by_cases hw0 : (cellAt cs c).width = 0
      · rw [clearForWide_at_cm1_blank cs c hw0 (by omega)] at hzero
        simp [blankCell, mkCell] at hzero
      · rw [clearForWide_at_cm1_orig cs c hw0] at hzero
        obtain ⟨h1i, hw2'⟩ := (hp (c - 1) (by omega)).2 hzero
        refine ⟨h1i, ?_⟩
        rw [hat (c - 1 - 1) (by omega) (by omega),
          clearForWide_at_ne cs c (c - 1 - 1) (by omega) (by omega) (by omega)]
        exact hw2'
    by_cases hip2 : i = c + 2
    · subst hip2
      by_cases hw2 : (cellAt cs (c + 1)).width = 2
      · rw [clearForWide_at_cp2_blank cs c hw2 (by omega)] at hzero
        simp [blankCell, mkCell] at hzero
      · rw [clearForWide_at_cp2_orig cs c hw2] at hzero
        obtain ⟨_, hw2'⟩ := (hp (c + 2) hi).2 hzero
        rw [show c + 2 - 1 = c + 1 from by omega] at hw2'
        exact absurd hw2' hw2
    rw [clearForWide_at_ne cs c i him hic1 hip2] at hzero
    obtain ⟨h1i, hw2'⟩ := (hp i hi).2 hzero
    refine ⟨h1i, ?_⟩
    by_cases hm1 : i - 1 = c
    · rw [hm1, hatc]
    by_cases hm2 : i - 1 = c + 1
    · exact absurd (by omega : i = c + 2) hip2
    rw [hat (i - 1) hm1 hm2]
    by_cases hm3 : i - 1 = c - 1
    · exact absurd (by omega : i = c) hic
    by_cases hm4 : i - 1 = c + 2
    · by_cases hw2 : (cellAt cs (c + 1)).width = 2
      · obtain ⟨_, hz2⟩ := (hp (c + 1) hc).1 hw2
        rw [show c + 1 + 1 = c + 2 from rfl] at hz2
        rw [hm4] at hw2'
        omega
      · rw [hm4, clearForWide_at_cp2_orig cs c hw2]
        rw [hm4] at hw2'
        exact hw2'
    rw [clearForWide_at_ne cs c (i - 1) hm3 hm2 hm4]
    exact hw2'

theorem length_fixTail (cs : List GhosttyCell) :
    (fixTail cs).length = cs.length := by
  unfold fixTail
  split_ifs <;> simp

theorem length_resizeRow (cs : List GhosttyCell) (n : Nat) :
    (resizeRow cs n).length = n := by
  unfold resizeRow
  rw [List.length_append, List.length_replicate, length_fixTail,
    List.length_take]
  omega

theorem cellAt_take (cs : List GhosttyCell) (n i : Nat) (h : i < n) :
    cellAt (cs.take n) i = cellAt cs i := by
  rw [cellAt_eq_getElem?, cellAt_eq_getElem?, List.getElem?_take_of_lt h]

theorem fixTail_at_ne (cs : List GhosttyCell) (i : Nat)
    (h : i ≠ cs.length - 1) :
    cellAt (fixTail cs) i = cellAt cs i := by
  unfold fixTail
  split_ifs
  · exact cellAt_set_ne _ (cs.length - 1) i blankCell (fun hh => h hh.symm)
  · rfl

theorem fixTail_last_blank (cs : List GhosttyCell) (hne : 0 < cs.length)
    (h2 : (cellAt cs (cs.length - 1)).width = 2) :
    cellAt (fixTail cs) (cs.length - 1) = blankCell := by
  unfold fixTail
  rw [if_pos h2]
  exact cellAt_set_self _ _ _ (by omega)

theorem fixTail_last_orig (cs : List GhosttyCell)
    (h2 : (cellAt cs (cs.length - 1)).width ≠ 2) :
    cellAt (fixTail cs) (cs.length - 1) = cellAt cs (cs.length - 1) := by
  unfold fixTail
  rw [if_neg h2]

theorem resizeRow_at_lt (cs : List GhosttyCell) (n i : Nat)
    (h : i < min n cs.length) :
    cellAt (resizeRow cs n) i = cellAt (fixTail (cs.take n)) i := by
  unfold resizeRow
  rw [cellAt_eq_getElem?,
    List.getElem?_append_left (by rw [length_fixTail, List.length_take]; omega),
    ← cellAt_eq_getElem?]

theorem resizeRow_at_ge (cs : List GhosttyCell) (n i : Nat)
    (h : min n cs.length ≤ i) :
    cellAt (resizeRow cs n) i = blankCell := by
  by_cases hn : i < n
  · unfold resizeRow
    rw [cellAt_eq_getElem?,
      List.getElem?_append_right (by rw [length_fixTail, List.length_take]; omega),
      List.getElem?_replicate_of_lt (by rw [length_fixTail, List.length_take]; omega)]
    rfl
  · exact cellAt_oob _ _ (by rw [length_resizeRow]; omega)

theorem rowPaired_resizeRow (cs : List GhosttyCell) (n : Nat)
    (hp : rowPaired cs) : rowPaired (resizeRow cs n) := by
  have hm : (cs.take n).length = min n cs.length := List.length_take n cs
  have hf2a : min n cs.length ≥ 1 →
      (cellAt cs (min n cs.length - 1)).width = 2 →
      cellAt (fixTail (cs.take n)) (min n cs.length - 1) = blankCell := by
    intro h1 h2
    have := fixTail_last_blank (cs.take n) (by omega)
    rw [hm] at this
    apply this
    rw [cellAt_take cs n _ (by omega)]
    exact h2
  have hf2b : min n cs.length ≥ 1 →
      (cellAt cs (min n cs.length - 1)).width ≠ 2 →
      cellAt (fixTail (cs.take n)) (min n cs.length - 1) =
        cellAt cs (min n cs.length - 1) := by
    intro h1 h2
    have := fixTail_last_orig (cs.take n)
    rw [hm] at this
    rw [this (by rw [cellAt_take cs n _ (by omega)]; exact h2),
      cellAt_take cs n _ (by omega)]
  have hf1 : ∀ i, i < min n cs.length → i ≠ min n cs.length - 1 →
      cellAt (fixTail (cs.take n)) i = cellAt cs i := by
    intro i h1 h2
    have := fixTail_at_ne (cs.take n) i (by rw [hm]; exact h2)
    rw [this, cellAt_take cs n i (by omega)]
  intro i hi
  rw [length_resizeRow] at hi
  by_cases him : i < min n cs.length
  · rw [resizeRow_at_lt cs n i him]
    constructor
    · intro hwide
      by_cases hlast : i = min n cs.length - 1
      · exfalso
        by_cases hw2 : (cellAt cs (min n cs.length - 1)).width = 2
        · rw [hlast, hf2a (by omega) hw2] at hwide
          simp [blankCell, mkCell] at hwide
        · rw [hlast, hf2b (by omega) hw2] at hwide
          exact hw2 hwide
      · rw [hf1 i him hlast] at hwide
        obtain ⟨hlt, hz⟩ := (hp i (by omega)).1 hwide
        refine ⟨by rw [length_resizeRow]; omega, ?_⟩
        rw [resizeRow_at_lt cs n (i + 1) (by omega)]
        by_cases hl2 : i + 1 = min n cs.length - 1
        · have hz' : (cellAt cs (min n cs.length - 1)).width = 0 := by
            rw [← hl2]
            exact hz
          rw [hl2, hf2b (by omega) (by omega)]
          exact hz'
        · rw [hf1 (i + 1) (by omega) hl2]
          exact hz
    · intro hzero
      by_cases hlast : i = min n cs.length - 1
      · by_cases hw2 : (cellAt cs (min n cs.length - 1)).width = 2
        · exfalso
          rw [hlast, hf2a (by omega) hw2] at hzero
          simp [blankCell, mkCell] at hzero
        · rw [hlast, hf2b (by omega) hw2] at hzero
          obtain ⟨h1i, hw2'⟩ := (hp (min n cs.length - 1) (by omega)).2 hzero
          refine ⟨by omega, ?_⟩
          rw [hlast, resizeRow_at_lt cs n _ (by omega),
            hf1 (min n cs.length - 1 - 1) (by omega) (by omega)]
          exact hw2'
      · rw [hf1 i him hlast] at hzero
        obtain ⟨h1i, hw2'⟩ := (hp i (by omega)).2 hzero
        refine ⟨h1i, ?_⟩
        rw [resizeRow_at_lt cs n (i - 1) (by omega),
          hf1 (i - 1) (by omega) (by omega)]
        exact hw2'
  · rw [resizeRow_at_ge cs n i (by omega)]
    constructor
    · intro hwide
      exact absurd hwide blankCell_width_facts.1
    · intro hzero
      exact absurd hzero blankCell_width_facts.2

/-! ## Grapheme-bound preservation -/

theorem graphemeBound_set (cs : List GhosttyCell) (i : Nat) (x : GhosttyCell)
    (h : graphemeBound cs) (hx : x.extra.length ≤ 255) :
    graphemeBound (cs.set i x) := by
  intro cc hcc
  rcases List.mem_or_eq_of_mem_set hcc with h1 | h1
  · exact h cc h1
  · rw [h1]
    exact hx

theorem graphemeBound_prepCell (cs : List GhosttyCell) (c : Nat)
    (h : graphemeBound cs) : graphemeBound (prepCell cs c) := by
  unfold prepCell
  split_ifs <;>
    first
      | exact graphemeBound_set cs _ blankCell h (by simp [blankCell, mkCell])
      | exact h

theorem graphemeBound_writeNarrowRow (cs : List GhosttyCell) (c : Nat)
    (x : GhosttyCell) (h : graphemeBound cs) (hx : x.extra.length ≤ 255) :
    graphemeBound (writeNarrowRow cs c x) :=
  graphemeBound_set (prepCell cs c) c x (graphemeBound_prepCell cs c h) hx

theorem graphemeBound_clearForWide (cs : List GhosttyCell) (c : Nat)
    (h : graphemeBound cs) : graphemeBound (clearForWide cs c) := by
  unfold clearForWide
  split_ifs
  · exact graphemeBound_set _ _ blankCell (graphemeBound_prepCell cs c h)
      (by simp [blankCell, mkCell])
  · exact graphemeBound_prepCell cs c h

theorem graphemeBound_writeWideRow (cs : List GhosttyCell) (c : Nat)
    (head : GhosttyCell) (h : graphemeBound cs)
    (hh : head.extra.length ≤ 255) :
    graphemeBound (writeWideRow cs c head) := by
  unfold writeWideRow
  exact graphemeBound_set _ _ spacerCell
    (graphemeBound_set _ _ _ (graphemeBound_clearForWide cs c h) hh)
    (by simp [spacerCell, mkCell])

theorem graphemeBound_fixTail (cs : List GhosttyCell)
    (h : graphemeBound cs) : graphemeBound (fixTail cs) := by
  unfold fixTail
  split_ifs
  · exact graphemeBound_set cs _ blankCell h (by simp [blankCell, mkCell])
  · exact h

theorem graphemeBound_resizeRow (cs : List GhosttyCell) (n : Nat)
    (h : graphemeBound cs) : graphemeBound (resizeRow cs n) := by
  intro cc hcc
  rcases List.mem_append.mp hcc with h1 | h1
  · exact graphemeBound_fixTail (cs.take n)
      (fun x hx => h x (List.mem_of_mem_take hx)) cc h1
  · rw [List.eq_of_mem_replicate h1]
    simp [blankCell, mkCell]

theorem graphemeBound_combineCell (cs : List GhosttyCell) (t cp : Nat)
    (h : graphemeBound cs) : graphemeBound (combineCell cs t cp) := by
  unfold combineCell
  split_ifs with hlt
  · refine graphemeBound_set cs t _ h ?_
    simp only [List.length_append, List.length_cons, List.length_nil]
    omega
  · exact h

theorem rowPaired_combineCell (cs : List GhosttyCell) (t cp : Nat)
    (hp : rowPaired cs) : rowPaired (combineCell cs t cp) := by
  have hlen : (combineCell cs t cp).length = cs.length := by
    unfold combineCell
    split_ifs <;> simp
  have hwidth : ∀ j, (cellAt (combineCell cs t cp) j).width =
      (cellAt cs j).width := by
    intro j
    unfold combineCell
    split_ifs
    · by_cases hj : j = t
      · subst hj
        by_cases hjl : j < cs.length
        · rw [cellAt_set_self _ _ _ hjl]
        · rw [List.set_eq_of_length_le (by omega)]
      · rw [cellAt_set_ne _ t j _ (fun hh => hj hh.symm)]
    · rfl
  intro i hi
  rw [hlen] at hi
  constructor
  · intro hwide
    rw [hwidth i] at hwide
    obtain ⟨hlt, hz⟩ := (hp i hi).1 hwide
    exact ⟨by rw [hlen]; exact hlt, by rw [hwidth (i + 1)]; exact hz⟩
  · intro hzero
    rw [hwidth i] at hzero
    obtain ⟨h1i, hw2'⟩ := (hp i hi).2 hzero
    exact ⟨h1i, by rw [hwidth (i - 1)]; exact hw2'⟩

/-! ## State-level invariant preservation -/

theorem StInv.congr (st st' : TermState) (h : StInv st)
    (hcols : st'.cols = st.cols) (hrows : st'.rows = st.rows)
    (hgrid : st'.grid = st.grid) (hsb : st'.scrollback = st.scrollback)
    (hx : st'.cursorX = st.cursorX) (hy : st'.cursorY = st.cursorY) :
    StInv st' := by
  refine ⟨?_, ?_, ?_, ?_, ?_, ?_, ?_, ?_, ?_⟩
  · rw [hcols]; exact h.colsPos
  · rw [hrows]; exact h.rowsPos
  · rw [hgrid, hrows]; exact h.gridLen
  · rw [hgrid, hcols]; exact h.rowLen
  · rw [hgrid]; exact h.paired
  · rw [hgrid]; exact h.gBound
  · rw [hsb]; exact h.sbBound
  · rw [hx, hcols]; exact h.curX
  · rw [hy, hrows]; exact h.curY

theorem blankRow_cells_length (n : Nat) : (blankRow n).cells.length = n := by
  simp [blankRow]

theorem blankRow_paired (n : Nat) : rowPaired (blankRow n).cells :=
  rowPaired_replicate_blank n

theorem blankRow_gBound (n : Nat) : graphemeBound (blankRow n).cells :=
  graphemeBound_replicate_blank n

theorem rowAt_props (st : TermState) (h : StInv st) (y : Nat) :
    (rowAt st y).cells.length = st.cols ∧ rowPaired (rowAt st y).cells ∧
      graphemeBound (rowAt st y).cells := by
  by_cases hy : y < st.grid.length
  · have hmem : rowAt st y ∈ st.grid := by
      rw [rowAt, List.getD_eq_getElem?_getD, List.getElem?_eq_getElem hy]
      exact List.getElem_mem hy
    exact ⟨h.rowLen _ hmem, h.paired _ hmem, h.gBound _ hmem⟩
  · have hb : rowAt st y = blankRow st.cols := by
      rw [rowAt, List.getD_eq_getElem?_getD, List.getElem?_eq_none (by omega)]
      rfl
    rw [hb]
    exact ⟨blankRow_cells_length _, blankRow_paired _, blankRow_gBound _⟩

theorem inv_updateRowD (st : TermState) (y : Nat) (f : TermRow → TermRow)
    (h : StInv st)
    (hf : ∀ r : TermRow, r.cells.length = st.cols → rowPaired r.cells →
      graphemeBound r.cells → (f r).cells.length = st.cols ∧
        rowPaired (f r).cells ∧ graphemeBound (f r).cells) :
    StInv (updateRowD st y f) := by
  obtain ⟨hl0, hp0, hg0⟩ := rowAt_props st h y
  obtain ⟨hl', hp', hg'⟩ := hf (rowAt st y) hl0 hp0 hg0
  refine ⟨h.colsPos, h.rowsPos, ?_, ?_, ?_, ?_, h.sbBound, h.curX, h.curY⟩
  · show (st.grid.set y _).length = st.rows
    rw [List.length_set]
    exact h.gridLen
  · intro r hr
    rcases List.mem_or_eq_of_mem_set hr with h1 | h1
    · exact h.rowLen r h1
    · rw [h1]
      exact hl'
  · intro r hr
    rcases List.mem_or_eq_of_mem_set hr with h1 | h1
    · exact h.paired r h1
    · rw [h1]
      exact hp'
  · intro r hr
    rcases List.mem_or_eq_of_mem_set hr with h1 | h1
    · exact h.gBound r h1
    · rw [h1]
      exact hg'

theorem mem_sbAppendRow (limit : Nat) (sb : List TermRow) (r x : TermRow)
    (hx : x ∈ sbAppendRow limit sb r) : x ∈ sb ∨ x = r := by
  unfold sbAppendRow at hx
  split_ifs at hx
  · rcases List.mem_append.mp hx with h | h
    · exact Or.inl h
    · exact Or.inr (by simpa using h)
  · rcases List.mem_append.mp (List.mem_of_mem_drop hx) with h | h
    · exact Or.inl h
    · exact Or.inr (by simpa using h)

theorem inv_scrollUp (st : TermState) (h : StInv st) : StInv (scrollUp st) := by
  rcases hg : st.grid with _ | ⟨r0, rest⟩
  · simp only [scrollUp, hg]
    exact h
  · simp only [scrollUp, hg]
    have hr0 : r0 ∈ st.grid := by rw [hg]; exact List.mem_cons_self r0 rest
    have hlen : rest.length + 1 = st.rows := by
      have := h.gridLen
      rw [hg] at this
      simpa using this
    refine ⟨h.colsPos, h.rowsPos, ?_, ?_, ?_, ?_, ?_, h.curX, h.curY⟩
    · show (rest ++ [blankRow st.cols]).length = st.rows
      simp [hlen]
    · intro r hr
      rcases List.mem_append.mp hr with h1 | h1
      · exact h.rowLen r (by rw [hg]; exact List.mem_cons_of_mem r0 h1)
      · rw [List.mem_singleton.mp h1]
        exact blankRow_cells_length _
    · intro r hr
      rcases List.mem_append.mp hr with h1 | h1
      · exact h.paired r (by rw [hg]; exact List.mem_cons_of_mem r0 h1)
      · rw [List.mem_singleton.mp h1]
        exact blankRow_paired _
    · intro r hr
      rcases List.mem_append.mp hr with h1 | h1
      · exact h.gBound r (by rw [hg]; exact List.mem_cons_of_mem r0 h1)
      · rw [List.mem_singleton.mp h1]
        exact blankRow_gBound _
    · intro r hr
      rcases mem_sbAppendRow _ _ _ _ hr with h1 | h1
      · exact h.sbBound r h1
      · rw [h1]
        exact h.gBound r0 hr0

theorem inv_lf (st : TermState) (h : StInv st) : StInv (lf st) := by
  unfold lf
  dsimp only
  split_ifs with hy
  · exact ⟨h.colsPos, h.rowsPos, h.gridLen, h.rowLen, h.paired, h.gBound,
      h.sbBound, h.curX, hy⟩
  · exact inv_scrollUp _ ⟨h.colsPos, h.rowsPos, h.gridLen, h.rowLen,
      h.paired, h.gBound, h.sbBound, h.curX, h.curY⟩

theorem inv_wrapLine (st : TermState) (h : StInv st) : StInv (wrapLine st) := by
  have h1 := inv_lf st h
  have h2 := inv_updateRowD (lf st) (lf st).cursorY
    (fun r => { r with wrapped := true }) h1
    (fun r hl hp hg => ⟨hl, hp, hg⟩)
  exact ⟨h2.colsPos, h2.rowsPos, h2.gridLen, h2.rowLen, h2.paired,
    h2.gBound, h2.sbBound, h2.colsPos, h2.curY⟩

theorem length_combineCell (cs : List GhosttyCell) (t cp : Nat) :
    (combineCell cs t cp).length = cs.length := by
  unfold combineCell
  split_ifs <;> simp

theorem inv_putCombining (st : TermState) (cp : Nat) (h : StInv st) :
    StInv (putCombining st cp) := by
  unfold putCombining
  rcases combineTarget st with _ | t
  · exact h
  · apply inv_updateRowD _ _ _ h
    intro r hl hp hg
    refine ⟨?_, rowPaired_combineCell _ _ _ hp,
      graphemeBound_combineCell _ _ _ hg⟩
    show (combineCell r.cells t cp).length = st.cols
    rw [length_combineCell]
    exact hl

theorem inv_putNarrow_core (st : TermState) (cp : Nat) (h : StInv st) :
    StInv (updateRowD st st.cursorY
      (fun r => { r with
        cells := writeNarrowRow r.cells st.cursorX (mkCell cp 1) })) := by
  apply inv_updateRowD _ _ _ h
  intro r hl hp hg
  refine ⟨?_, rowPaired_writeNarrowRow _ _ _ hp rfl,
    graphemeBound_writeNarrowRow _ _ _ hg (by simp [mkCell])⟩
  show (writeNarrowRow r.cells st.cursorX (mkCell cp 1)).length = st.cols
  rw [length_writeNarrowRow]
  exact hl

theorem inv_putNarrow (st0 : TermState) (cp : Nat) (h0 : StInv st0) :
    StInv (putNarrow st0 cp) := by
  unfold putNarrow
  dsimp only
  split_ifs with hpw hx1 hx2
  · have hc := inv_putNarrow_core (wrapLine st0) cp (inv_wrapLine st0 h0)
    exact ⟨hc.colsPos, hc.rowsPos, hc.gridLen, hc.rowLen, hc.paired,
      hc.gBound, hc.sbBound, hx1, hc.curY⟩
  · have hc := inv_putNarrow_core (wrapLine st0) cp (inv_wrapLine st0 h0)
    exact ⟨hc.colsPos, hc.rowsPos, hc.gridLen, hc.rowLen, hc.paired,
      hc.gBound, hc.sbBound, hc.curX, hc.curY⟩
  · have hc := inv_putNarrow_core st0 cp h0
    exact ⟨hc.colsPos, hc.rowsPos, hc.gridLen, hc.rowLen, hc.paired,
      hc.gBound, hc.sbBound, hx2, hc.curY⟩
  · have hc := inv_putNarrow_core st0 cp h0
    exact ⟨hc.colsPos, hc.rowsPos, hc.gridLen, hc.rowLen, hc.paired,
      hc.gBound, hc.sbBound, hc.curX, hc.curY⟩

theorem inv_putWide_core (st : TermState) (cp : Nat) (h : StInv st)
    (hx1 : st.cursorX + 1 < st.cols) :
    StInv (updateRowD st st.cursorY
      (fun r => { r with
        cells := writeWideRow r.cells st.cursorX (mkCell cp 2) })) := by
  apply inv_updateRowD _ _ _ h
  intro r hl hp hg
  refine ⟨?_, ?_, graphemeBound_writeWideRow _ _ _ hg (by simp [mkCell])⟩
  · show (writeWideRow r.cells st.cursorX (mkCell cp 2)).length = st.cols
    rw [length_writeWideRow]
    exact hl
  · exact rowPaired_writeWideRow _ _ _ hp (by rw [hl]; exact hx1)

theorem wrapLine_cursorX (st : TermState) : (wrapLine st).cursorX = 0 := rfl

theorem scrollUp_cols (st : TermState) : (scrollUp st).cols = st.cols := by
  unfold scrollUp
  rcases st.grid <;> rfl

theorem lf_cols (st : TermState) : (lf st).cols = st.cols := by
  unfold lf
  dsimp only
  split_ifs
  · rfl
  · rw [scrollUp_cols]

theorem wrapLine_cols (st : TermState) : (wrapLine st).cols = st.cols := by
  show (lf st).cols = st.cols
  exact lf_cols st

theorem inv_putWide (st0 : TermState) (cp : Nat) (h0 : StInv st0) :
    StInv (putWide st0 cp) := by
  unfold putWide
  dsimp only
  split_ifs with hc2 hbr hx2 hx3
  · exact h0
  · have hc := inv_putWide_core (wrapLine st0) cp (inv_wrapLine st0 h0)
      (by omega)
    exact ⟨hc.colsPos, hc.rowsPos, hc.gridLen, hc.rowLen, hc.paired,
      hc.gBound, hc.sbBound, hx2, hc.curY⟩
  · have hx1 : (wrapLine st0).cursorX + 1 < (wrapLine st0).cols := by
      rw [wrapLine_cursorX, wrapLine_cols]
      omega
    have hc := inv_putWide_core (wrapLine st0) cp (inv_wrapLine st0 h0) hx1
    refine ⟨hc.colsPos, hc.rowsPos, hc.gridLen, hc.rowLen, hc.paired,
      hc.gBound, hc.sbBound, ?_, hc.curY⟩
    show (wrapLine st0).cols - 1 < (wrapLine st0).cols
    have := hc.colsPos
    show (wrapLine st0).cols - 1 < (wrapLine st0).cols
    omega
  · have hc := inv_putWide_core st0 cp h0 (by omega)
    exact ⟨hc.colsPos, hc.rowsPos, hc.gridLen, hc.rowLen, hc.paired,
      hc.gBound, hc.sbBound, hx3, hc.curY⟩
  · have hc := inv_putWide_core st0 cp h0 (by omega)
    refine ⟨hc.colsPos, hc.rowsPos, hc.gridLen, hc.rowLen, hc.paired,
      hc.gBound, hc.sbBound, ?_, hc.curY⟩
    show st0.cols - 1 < st0.cols
    omega

theorem inv_putCodepoint (st : TermState) (cp : Nat) (h : StInv st) :
    StInv (putCodepoint st cp) := by
  unfold putCodepoint
  split_ifs
  · exact inv_putCombining st cp h
  · exact inv_putWide st cp h
  · exact inv_putNarrow st cp h

theorem inv_doBackspace (st : TermState) (h : StInv st) :
    StInv (doBackspace st) := by
  refine ⟨h.colsPos, h.rowsPos, h.gridLen, h.rowLen, h.paired, h.gBound,
    h.sbBound, ?_, h.curY⟩
  show st.cursorX - 1 < st.cols
  have := h.curX
  omega

theorem inv_doCarriageReturn (st : TermState) (h : StInv st) :
    StInv (doCarriageReturn st) :=
  ⟨h.colsPos, h.rowsPos, h.gridLen, h.rowLen, h.paired, h.gBound,
    h.sbBound, h.colsPos, h.curY⟩

theorem inv_clearAll (st : TermState) (h : StInv st) : StInv (clearAll st) := by
  refine ⟨h.colsPos, h.rowsPos, ?_, ?_, ?_, ?_, h.sbBound, h.curX, h.curY⟩
  · show (List.replicate st.rows (blankRow st.cols)).length = st.rows
    simp
  · intro r hr
    rw [List.eq_of_mem_replicate hr]
    exact blankRow_cells_length _
  · intro r hr
    rw [List.eq_of_mem_replicate hr]
    exact blankRow_paired _
  · intro r hr
    rw [List.eq_of_mem_replicate hr]
    exact blankRow_gBound _

theorem inv_cursorTo (st : TermState) (pr pc : Nat) (h : StInv st) :
    StInv (cursorTo st pr pc) := by
  refine ⟨h.colsPos, h.rowsPos, h.gridLen, h.rowLen, h.paired, h.gBound,
    h.sbBound, ?_, ?_⟩
  · show Nat.min (Nat.max pc 1) st.cols - 1 < st.cols
    have h1 : Nat.min (Nat.max pc 1) st.cols ≤ st.cols := Nat.min_le_right _ _
    have h0 := h.colsPos
    omega
  · show Nat.min (Nat.max pr 1) st.rows - 1 < st.rows
    have h1 : Nat.min (Nat.max pr 1) st.rows ≤ st.rows := Nat.min_le_right _ _
    have h0 := h.rowsPos
    omega

theorem inv_csiDispatch (st : TermState) (params : List Nat) (f : Nat)
    (h : StInv st) : StInv (csiDispatch st params f) := by
  unfold csiDispatch
  split_ifs
  · exact inv_cursorTo st _ _ h
  · exact inv_clearAll st h
  · exact h
  · exact StInv.congr st _ h rfl rfl rfl rfl rfl rfl
  · exact h
  · exact h

theorem inv_withMode (st : TermState) (m : PMode) (h : StInv st) :
    StInv (withMode st m) :=
  StInv.congr st _ h rfl rfl rfl rfl rfl rfl

theorem inv_withUtf8 (st : TermState) (u : Option (Nat × Nat)) (h : StInv st) :
    StInv (withUtf8 st u) :=
  StInv.congr st _ h rfl rfl rfl rfl rfl rfl

theorem inv_csiStep (st : TermState) (p : List Nat) (cur : Nat) (ign : Bool)
    (b : Nat) (h : StInv st) : StInv (csiStep st p cur ign b) := by
  unfold csiStep
  split_ifs
  · exact inv_withMode _ _ h
  · exact inv_withMode _ _ h
  · exact inv_withMode _ _ h
  · exact inv_withMode _ _ h
  · exact inv_withMode _ _ (inv_csiDispatch st _ b h)
  · exact inv_withMode _ _ h
  · exact inv_withMode _ _ h

set_option maxHeartbeats 1000000 in
theorem inv_stepGroundFresh (st : TermState) (b : Nat) (h : StInv st) :
    StInv (stepGroundFresh st b) := by
  unfold stepGroundFresh
  split_ifs <;> first
    | exact inv_withMode _ _ h
    | exact inv_lf st h
    | exact inv_doCarriageReturn st h
    | exact inv_doBackspace st h
    | exact inv_putCodepoint st b h
    | exact inv_withUtf8 _ _ h

theorem inv_stepGround (st : TermState) (b : Nat) (h : StInv st) :
    StInv (stepGround st b) := by
  unfold stepGround
  rcases st.parser.utf8 with _ | ⟨acc, rem⟩
  · exact inv_stepGroundFresh st b h
  · dsimp only
    split_ifs
    · exact inv_putCodepoint _ _ (inv_withUtf8 _ _ h)
    · exact inv_withUtf8 _ _ h
    · exact inv_stepGroundFresh _ b (inv_withUtf8 _ _ h)

theorem inv_step (st : TermState) (b : Nat) (h : StInv st) :
    StInv (step st b) := by
  rcases hm : st.parser.mode with _ | _ | ⟨p, cur, ign⟩ | _ | _ <;>
    simp only [step, hm]
  · exact inv_stepGround st b h
  · split_ifs <;> exact inv_withMode _ _ h
  · exact inv_csiStep st p cur ign b h
  · split_ifs <;> exact inv_withMode _ _ h
  · exact inv_withMode _ _ h

theorem inv_write (st : TermState) (data : List Nat) (h : StInv st) :
    StInv (ghostty_terminal_write st data) := by
  unfold ghostty_terminal_write
  induction data generalizing st with
  | nil => exact h
  | cons b rest ih =>
    rw [List.foldl_cons]
    exact ih (step st b) (inv_step st b h)

theorem inv_resize (st : TermState) (cols rows : Int) (h : StInv st) :
    StInv (ghostty_terminal_resize st cols rows) := by
  unfold ghostty_terminal_resize
  split_ifs with hv
  · exact h
  · dsimp only
    have hc : 0 < cols.toNat := by omega
    have hr : 0 < rows.toNat := by omega
    refine ⟨hc, hr, ?_, ?_, ?_, ?_, h.sbBound, ?_, ?_⟩
    · simp only [List.length_append, List.length_map, List.length_take,
        List.length_replicate]
      omega
    · intro r' hr'
      rcases List.mem_append.mp hr' with h1 | h1
      · obtain ⟨r0, _, rfl⟩ := List.mem_map.mp h1
        exact length_resizeRow _ _
      · rw [List.eq_of_mem_replicate h1]
        exact blankRow_cells_length _
    · intro r' hr'
      rcases List.mem_append.mp hr' with h1 | h1
      · obtain ⟨r0, hr0, rfl⟩ := List.mem_map.mp h1
        exact rowPaired_resizeRow _ _
          (h.paired r0 (List.mem_of_mem_take hr0))
      · rw [List.eq_of_mem_replicate h1]
        exact blankRow_paired _
    · intro r' hr'
      rcases List.mem_append.mp hr' with h1 | h1
      · obtain ⟨r0, hr0, rfl⟩ := List.mem_map.mp h1
        exact graphemeBound_resizeRow _ _
          (h.gBound r0 (List.mem_of_mem_take hr0))
      · rw [List.eq_of_mem_replicate h1]
        exact blankRow_gBound _
    · show Nat.min st.cursorX (cols.toNat - 1) < cols.toNat
      have h1 : Nat.min st.cursorX (cols.toNat - 1) ≤ cols.toNat - 1 :=
        Nat.min_le_right _ _
      omega
    · show Nat.min st.cursorY (rows.toNat - 1) < rows.toNat
      have h1 : Nat.min st.cursorY (rows.toNat - 1) ≤ rows.toNat - 1 :=
        Nat.min_le_right _ _
      omega

theorem inv_trim (st : TermState) (n : Nat) (h : StInv st) :
    StInv (ghostty_terminal_trim_scrollback st n) := by
  refine ⟨h.colsPos, h.rowsPos, h.gridLen, h.rowLen, h.paired, h.gBound,
    ?_, h.curX, h.curY⟩
  intro r hr
  exact h.sbBound r (List.mem_of_mem_drop hr)

theorem inv_markClean (st : TermState) (h : StInv st) :
    StInv (ghostty_render_state_mark_clean st) :=
  StInv.congr st _ h rfl rfl rfl rfl rfl rfl

theorem inv_deleteImage (st : TermState) (id : Nat) (h : StInv st) :
    StInv (ghostty_kitty_delete_image st id) :=
  StInv.congr st _ h rfl rfl rfl rfl rfl rfl

theorem inv_clearKittyDirty (st : TermState) (h : StInv st) :
    StInv (ghostty_terminal_clear_kitty_images_dirty st) :=
  StInv.congr st _ h rfl rfl rfl rfl rfl rfl

theorem inv_readResponse (st : TermState) (cap : Nat) (h : StInv st) :
    StInv (ghostty_terminal_read_response st cap).2.2 :=
  StInv.congr st _ h rfl rfl rfl rfl rfl rfl

theorem inv_init (cols rows : Int) (cfg : Option GhosttyTerminalConfig)
    (st : TermState)
    (h : ghostty_terminal_new_with_config cols rows cfg = some st) :
    StInv st := by
  unfold ghostty_terminal_new_with_config at h
  split_ifs at h with hv
  · injection h with h'
    subst h'
    refine ⟨?_, ?_, ?_, ?_, ?_, ?_, ?_, ?_, ?_⟩
    · show 0 < cols.toNat
      omega
    · show 0 < rows.toNat
      omega
    · simp [mkInitialState]
    · intro r hr
      rw [List.eq_of_mem_replicate hr]
      exact blankRow_cells_length _
    · intro r hr
      rw [List.eq_of_mem_replicate hr]
      exact blankRow_paired _
    · intro r hr
      rw [List.eq_of_mem_replicate hr]
      exact blankRow_gBound _
    · intro r hr
      simp [mkInitialState] at hr
    · show (0 : Nat) < cols.toNat
      omega
    · show (0 : Nat) < rows.toNat
      omega

theorem reachable_inv (st : TermState) (h : Reachable st) : StInv st := by
  induction h with
  | init cols rows cfg st h0 => exact inv_init cols rows cfg st h0
  | write st data _ ih => exact inv_write st data ih
  | resize st cols rows _ ih => exact inv_resize st cols rows ih
  | trim st n _ ih => exact inv_trim st n ih
  | markClean st _ ih => exact inv_markClean st ih
  | deleteImage st id _ ih => exact inv_deleteImage st id ih
  | clearKittyDirty st _ ih => exact inv_clearKittyDirty st ih
  | readResponse st cap _ ih => exact inv_readResponse st cap ih

/-! ## C3: wide-cell pairing in every reachable grid state -/

/-- C3: in every reachable grid state, a width-2 cell at column c is
immediately followed by a width-0 continuation cell at column c+1, and
overwriting either column of the pair — or resizing the row so that the
pair is split — erases both cells as a unit. -/
theorem wide_cell_pairing (st : TermState) (r : TermRow) (c cp : Nat)
    (h : Reachable st) (hr : r ∈ st.grid)
    (hw : (cellAt r.cells c).width = 2) :
    (c + 1 < r.cells.length ∧ (cellAt r.cells (c + 1)).width = 0) ∧
    cellAt (writeNarrowRow r.cells c (mkCell cp 1)) (c + 1) = blankCell ∧
    cellAt (writeNarrowRow r.cells (c + 1) (mkCell cp 1)) c = blankCell ∧
    cellAt (resizeRow r.cells (c + 1)) c = blankCell := by
  have hp := (reachable_inv st h).paired r hr
  have hc : c < r.cells.length := by
    by_contra hcon
    rw [cellAt_oob _ _ (by omega)] at hw
    exact blankCell_width_facts.1 hw
  obtain ⟨hc1, hsp⟩ := (hp c hc).1 hw
  refine ⟨⟨hc1, hsp⟩, ?_, ?_, ?_⟩
  · unfold writeNarrowRow prepCell
    rw [if_pos hw, cellAt_set_ne _ c (c + 1) _ (by omega),
      cellAt_set_self _ _ _ (by simpa using hc1)]
  · unfold writeNarrowRow prepCell
    rw [if_neg (by rw [hsp]; omega), if_pos hsp,
      cellAt_set_ne _ (c + 1) c _ (by omega),
      show c + 1 - 1 = c from rfl]
    exact cellAt_set_self _ _ _ hc
  · have htl : (r.cells.take (c + 1)).length = c + 1 := by
      rw [List.length_take]
      omega
    have hcond : (cellAt (r.cells.take (c + 1))
        ((r.cells.take (c + 1)).length - 1)).width = 2 := by
      rw [htl, show c + 1 - 1 = c from rfl, cellAt_take _ _ _ (by omega)]
      exact hw
    unfold resizeRow fixTail
    rw [if_pos hcond, cellAt_eq_getElem?,
      List.getElem?_append_left (by rw [List.length_set, htl]; omega),
      ← cellAt_eq_getElem?, htl, show c + 1 - 1 = c from rfl]
    exact cellAt_set_self _ _ _ (by rw [htl]; omega)

theorem wide_cell_pairing_witness :
    (0 + 1 < (rowAt (ghostty_terminal_write demoTerm [0xE4, 0xB8, 0x80]) 0).cells.length ∧
      (cellAt (rowAt (ghostty_terminal_write demoTerm [0xE4, 0xB8, 0x80]) 0).cells
        (0 + 1)).width = 0) ∧
    cellAt (writeNarrowRow
      (rowAt (ghostty_terminal_write demoTerm [0xE4, 0xB8, 0x80]) 0).cells 0
      (mkCell 65 1)) (0 + 1) = blankCell ∧
    cellAt (writeNarrowRow
      (rowAt (ghostty_terminal_write demoTerm [0xE4, 0xB8, 0x80]) 0).cells (0 + 1)
      (mkCell 65 1)) 0 = blankCell ∧
    cellAt (resizeRow
      (rowAt (ghostty_terminal_write demoTerm [0xE4, 0xB8, 0x80]) 0).cells
      (0 + 1)) 0 = blankCell :=
  wide_cell_pairing (ghostty_terminal_write demoTerm [0xE4, 0xB8, 0x80])
    (rowAt (ghostty_terminal_write demoTerm [0xE4, 0xB8, 0x80]) 0) 0 65
    (Reachable.write demoTerm [0xE4, 0xB8, 0x80]
      (Reachable.init 4 3 none demoTerm rfl))
    (by decide) (by decide)

/-! ## C10: grapheme counts never exceed 256 codepoints -/

theorem graphemeBound_cellAt (cs : List GhosttyCell) (i : Nat)
    (h : graphemeBound cs) : (cellAt cs i).extra.length ≤ 255 := by
  by_cases hi : i < cs.length
  · apply h
    rw [cellAt_eq_getElem?, List.getElem?_eq_getElem hi]
    exact List.getElem_mem hi
  · rw [cellAt_oob _ _ (by omega)]
    simp [blankCell, mkCell]

/-- C10: because grapheme_len is an 8-bit count of extra codepoints,
every successful ghostty_render_state_get_grapheme and, independently,
every successful ghostty_terminal_get_scrollback_grapheme call on a
reachable terminal reports at most 256 codepoints — each bound holds on
its own, regardless of whether the other query can succeed. -/
theorem grapheme_count_le_256 (st : TermState) (row col off col2 : Int)
    (cap cap2 : Nat) (n m : Int) (out out2 : List Nat) (st1 st2 : TermState)
    (h : Reachable st) :
    (ghostty_render_state_get_grapheme st row col cap = (n, out, st1) →
      n ≠ -1 → n ≤ 256) ∧
    (ghostty_terminal_get_scrollback_grapheme st off col2 cap2 =
        (m, out2, st2) →
      m ≠ -1 → m ≤ 256) := by
  have hI := reachable_inv st h
  constructor
  · intro h1 hn
    unfold ghostty_render_state_get_grapheme at h1
    split_ifs at h1 with ha hb
    · injection h1 with hx hrest
      have hcell := graphemeBound_cellAt (rowAt st row.toNat).cells col.toNat
        (rowAt_props st hI row.toNat).2.2
      rw [← hx]
      have hb2 : (cellAt (rowAt st row.toNat).cells col.toNat).extra.length
          + 1 ≤ 256 := by omega
      exact_mod_cast hb2
    · injection h1 with hx hrest
      exact absurd hx.symm hn
    · injection h1 with hx hrest
      exact absurd hx.symm hn
  · intro h2 hm
    unfold ghostty_terminal_get_scrollback_grapheme at h2
    have hsb : graphemeBound
        (st.scrollback.getD off.toNat (blankRow st.cols)).cells := by
      by_cases ho : off.toNat < st.scrollback.length
      · apply hI.sbBound
        rw [List.getD_eq_getElem?_getD, List.getElem?_eq_getElem ho]
        exact List.getElem_mem ho
      · rw [List.getD_eq_getElem?_getD, List.getElem?_eq_none (by omega)]
        exact blankRow_gBound _
    split_ifs at h2 with ha hb
    · injection h2 with hx hrest
      have hcell := graphemeBound_cellAt
        (st.scrollback.getD off.toNat (blankRow st.cols)).cells col2.toNat hsb
      rw [← hx]
      have hb2 : (cellAt (st.scrollback.getD off.toNat
          (blankRow st.cols)).cells col2.toNat).extra.length + 1 ≤ 256 := by
        omega
      exact_mod_cast hb2
    · injection h2 with hx hrest
      exact absurd hx.symm hm
    · injection h2 with hx hrest
      exact absurd hx.symm hm

theorem grapheme_count_le_256_witness : (1 : Int) ≤ 256 ∧ (1 : Int) ≤ 256 :=
  ⟨(grapheme_count_le_256 (ghostty_terminal_write demoTerm [0x0A, 0x0A, 0x0A])
      0 0 0 0 4 4 1 1 [0] [0]
      (ghostty_terminal_write demoTerm [0x0A, 0x0A, 0x0A])
      (ghostty_terminal_write demoTerm [0x0A, 0x0A, 0x0A])
      (Reachable.write demoTerm [0x0A, 0x0A, 0x0A]
        (Reachable.init 4 3 none demoTerm rfl))).1 (by decide) (by decide),
   (grapheme_count_le_256 (ghostty_terminal_write demoTerm [0x0A, 0x0A, 0x0A])
      0 0 0 0 4 4 1 1 [0] [0]
      (ghostty_terminal_write demoTerm [0x0A, 0x0A, 0x0A])
      (ghostty_terminal_write demoTerm [0x0A, 0x0A, 0x0A])
      (Reachable.write demoTerm [0x0A, 0x0A, 0x0A]
        (Reachable.init 4 3 none demoTerm rfl))).2 (by decide) (by decide)⟩

/-! ## C7: get_grapheme contract -/

/-- C7: for an in-range cell with a sufficient buffer,
ghostty_render_state_get_grapheme writes the cell's full codepoint
sequence — the base codepoint followed by the extra codepoints — and
returns grapheme_len + 1; for an out-of-range cell it returns the
distinguished failure value -1, writes nothing, and hands the terminal
state back unchanged in both cases. -/
theorem get_grapheme_contract (st : TermState) (row col : Int) (cap : Nat) :
    ((0 ≤ row ∧ row < (st.rows : Int) ∧ 0 ≤ col ∧ col < (st.cols : Int)) →
      grapheme_len (cellAt (rowAt st row.toNat).cells col.toNat) + 1 ≤ cap →
      ghostty_render_state_get_grapheme st row col cap =
        (((grapheme_len (cellAt (rowAt st row.toNat).cells col.toNat) + 1 :
            Nat) : Int),
         (cellAt (rowAt st row.toNat).cells col.toNat).codepoint ::
           (cellAt (rowAt st row.toNat).cells col.toNat).extra, st)) ∧
    (¬(0 ≤ row ∧ row < (st.rows : Int) ∧ 0 ≤ col ∧ col < (st.cols : Int)) →
      ghostty_render_state_get_grapheme st row col cap = (-1, [], st)) := by
  constructor
  · intro hin hcap
    unfold grapheme_len at hcap ⊢
    unfold ghostty_render_state_get_grapheme
    rw [if_pos hin, if_pos hcap]
  · intro hout
    unfold ghostty_render_state_get_grapheme
    rw [if_neg hout]

theorem get_grapheme_contract_witness :
    ghostty_render_state_get_grapheme demoTerm 0 0 4 =
      (((grapheme_len (cellAt (rowAt demoTerm 0).cells 0) + 1 : Nat) : Int),
       (cellAt (rowAt demoTerm 0).cells 0).codepoint ::
         (cellAt (rowAt demoTerm 0).cells 0).extra, demoTerm) :=
  (get_grapheme_contract demoTerm 0 0 4).1 (by decide) (by decide)
